import Mathlib

/-!
Verification development for the asgi-webdav authentication and response
delivery core (src/asgi_webdav/auth.py, src/asgi_webdav/response.py).

Strings are modelled as `List Char` (Python `str`, code points) and byte
strings as `List Nat` (Python `bytes`, each entry < 256).  Python dicts are
modelled as insertion-ordered association lists (`PyDict`): inserting an
existing key overwrites the value in place, inserting a fresh key appends.
Fallible Python code (expressions that can raise) is modelled with `Option`:
`none` models an uncaught exception.
-/

set_option maxRecDepth 8192

namespace AsgiWebdav

/-- Ordered association list modelling a Python dict. -/
abbrev PyDict (α β : Type) := List (α × β)

/-- Python dict assignment `d[k] = v`: overwrite in place, else append. -/
def dinsert {α β : Type} [DecidableEq α] (k : α) (v : β) : PyDict α β → PyDict α β
  | [] => [(k, v)]
  | (k0, v0) :: t => if k0 = k then (k0, v) :: t else (k0, v0) :: dinsert k v t

/-- Python `d.get(k)`. -/
def dlookup {α β : Type} [DecidableEq α] (k : α) : PyDict α β → Option β
  | [] => none
  | (k0, v0) :: t => if k0 = k then some v0 else dlookup k t

/-- Python `d.pop(k)` wrapped in `try/except KeyError: pass`: remove the key
if present, otherwise leave the dict unchanged. -/
def dpop {α β : Type} [DecidableEq α] (k : α) : PyDict α β → PyDict α β
  | [] => []
  | (k0, v0) :: t => if k0 = k then t else (k0, v0) :: dpop k t

/-- Python `d.update(e)`: insert every pair of `e` into `d` in order. -/
def dupdate {α β : Type} [DecidableEq α] (d e : PyDict α β) : PyDict α β :=
  e.foldl (fun acc kv => dinsert kv.1 kv.2 acc) d

/-- Fold a list into a dict, keying and valuing each element by the given
functions (models loops of the shape `for x in l: d[key(x)] = val(x)`). -/
def dinsertAll {α β γ : Type} [DecidableEq α] (keyfn : γ → α) (valfn : γ → β)
    (l : List γ) (m : PyDict α β) : PyDict α β :=
  l.foldl (fun acc x => dinsert (keyfn x) (valfn x) acc) m

/-- Python `s.lstrip(cs)`. -/
def lstripCs (cs : List Char) (s : List Char) : List Char :=
  s.dropWhile (fun c => cs.contains c)

/-- Python `s.rstrip(cs)`. -/
def rstripCs (cs : List Char) (s : List Char) : List Char :=
  (lstripCs cs s.reverse).reverse

/-- Python `s.strip(cs)`. -/
def stripCs (cs : List Char) (s : List Char) : List Char :=
  rstripCs cs (lstripCs cs s)

/-- Python `s.split(sep)` for a one-character separator: always returns at
least one (possibly empty) fragment. -/
def splitOnChar (c : Char) : List Char → List (List Char)
  | [] => [[]]
  | x :: xs =>
    match splitOnChar c xs with
    | [] => [[]]
    | y :: ys => if x = c then [] :: y :: ys else (x :: y) :: ys

/-- Python `s.split(sep, maxsplit=1)` for a one-character separator, as the
pair around the first occurrence; `none` when the separator is absent
(in which case 2-element unpacking raises `ValueError`). -/
def splitFirst (sep : Char) : List Char → Option (List Char × List Char)
  | [] => none
  | c :: t =>
    if c = sep then some ([], t)
    else (splitFirst sep t).map (fun p => (c :: p.1, p.2))

/-- Python `sep.join(parts)`. -/
def joinSep (sep : List Char) : List (List Char) → List Char
  | [] => []
  | x :: xs =>
    match xs with
    | [] => x
    | _ => x ++ sep ++ joinSep sep xs

/-- UTF-8 encoding of one code point. -/
def encodeChar (n : Nat) : List Nat :=
  if n < 0x80 then [n]
  else if n < 0x800 then [0xC0 + n / 0x40, 0x80 + n % 0x40]
  else if n < 0x10000 then
    [0xE0 + n / 0x1000, 0x80 + n / 0x40 % 0x40, 0x80 + n % 0x40]
  else
    [0xF0 + n / 0x40000, 0x80 + n / 0x1000 % 0x40, 0x80 + n / 0x40 % 0x40, 0x80 + n % 0x40]

/-- Python `s.encode("utf-8")`. -/
def encodeUtf8 (s : List Char) : List Nat :=
  (s.map (fun c => encodeChar c.toNat)).flatten

/-- Whether a byte is a UTF-8 continuation byte. -/
def isCont (b : Nat) : Bool := 0x80 ≤ b && b < 0xC0

/-- Python `bs.decode("utf-8")` (strict): `none` models `UnicodeDecodeError`.
Rejects continuation-byte leads, overlong encodings, surrogates and
code points above U+10FFFF, as CPython does. -/
def decodeUtf8 : List Nat → Option (List Char)
  | [] => some []
  | b :: rest =>
    if b < 0x80 then (decodeUtf8 rest).map (fun t => Char.ofNat b :: t)
    else if b < 0xC2 then none
    else if b < 0xE0 then
      match rest with
      | b1 :: r =>
        if isCont b1 then
          (decodeUtf8 r).map (fun t => Char.ofNat ((b - 0xC0) * 0x40 + (b1 - 0x80)) :: t)
        else none
      | [] => none
    else if b < 0xF0 then
      match rest with
      | b1 :: b2 :: r =>
        let n := (b - 0xE0) * 0x1000 + (b1 - 0x80) * 0x40 + (b2 - 0x80)
        if isCont b1 && isCont b2 && decide (0x800 ≤ n) &&
            !(decide (0xD800 ≤ n) && decide (n < 0xE000)) then
          (decodeUtf8 r).map (fun t => Char.ofNat n :: t)
        else none
      | _ => none
    else if b < 0xF5 then
      match rest with
      | b1 :: b2 :: b3 :: r =>
        let n := (b - 0xF0) * 0x40000 + (b1 - 0x80) * 0x1000 + (b2 - 0x80) * 0x40 + (b3 - 0x80)
        if isCont b1 && isCont b2 && isCont b3 && decide (0x10000 ≤ n) &&
            decide (n < 0x110000) then
          (decodeUtf8 r).map (fun t => Char.ofNat n :: t)
        else none
      | _ => none
    else none

/-- Standard base64 alphabet. -/
def b64Alphabet : List Char :=
  "ABCDEFGHIJKLMNOPQRSTUVWXYZabcdefghijklmnopqrstuvwxyz0123456789+/".toList

/-- Value of the base64 alphabet at an index, as a byte. -/
def b64Char (n : Nat) : Nat := (b64Alphabet.getD n 'A').toNat

/-- Python `base64.b64encode` on a byte string (with `=` padding). -/
def b64encode : List Nat → List Nat
  | [] => []
  | [a] => [b64Char (a / 4), b64Char (a % 4 * 16), 61, 61]
  | [a, b] => [b64Char (a / 4), b64Char (a % 4 * 16 + b / 16), b64Char (b % 16 * 4), 61]
  | a :: b :: c :: rest =>
    b64Char (a / 4) :: b64Char (a % 4 * 16 + b / 16) ::
      b64Char (b % 16 * 4 + c / 64) :: b64Char (c % 64) :: b64encode rest

/-- ASCII lower-casing of one byte, as in Python `bytes.lower()`. -/
def byteLower (b : Nat) : Nat := if 65 ≤ b && b ≤ 90 then b + 32 else b

/-- Decimal digit character. -/
def digitChar (d : Nat) : Char := Char.ofNat (48 + d)

/-- Decimal digits of a natural number (auxiliary, fuel-indexed). -/
def natDigits : Nat → Nat → List Char
  | 0, _ => []
  | fuel + 1, n =>
    if n < 10 then [digitChar n] else natDigits fuel (n / 10) ++ [digitChar (n % 10)]

/-- Python `str(n)` for a natural number. -/
def natToStr (n : Nat) : List Char := natDigits (n + 1) n

/-! ## Authentication model (src/asgi_webdav/auth.py)

Hash abstraction: `hashlib.md5(...).hexdigest()` is an external library
primitive; the embedding is parameterized over it as
`md5hex : List Char → List Char`, taking the colon-joined text that
`build_md5_digest` feeds to `md5(... .encode("utf-8")).hexdigest()` and
returning the hex digest. -/

/-- Modelled from the spec: `DAVUser` lives in `asgi_webdav.constants`, which
is not part of the sources; the spec's data model gives
`{username, password, permissions, isAdmin}`, immutable once loaded. -/
structure DAVUser where
  username : List Char
  password : List Char
  permissions : List (List Char)
  admin : Bool
deriving DecidableEq

/-- Basic credential string registered for a user by `HTTPBasicAuth.__init__`:
`b64encode(f"{user.username}:{user.password}".encode("utf-8"))`. -/
def basic_credential (user : DAVUser) : List Nat :=
  b64encode (encodeUtf8 (user.username ++ (":".toList) ++ user.password))

/-- Loop body of `HTTPBasicAuth.__init__`: register every value of
`user_mapping` into the (class-level, shared) `credential_user_mapping`. -/
def http_basic_auth_register (cred_map : PyDict (List Nat) DAVUser)
    (user_mapping : PyDict (List Char) DAVUser) : PyDict (List Nat) DAVUser :=
  dinsertAll basic_credential (fun u => u) (user_mapping.map Prod.snd) cred_map

/-- `HTTPBasicAuth.is_credential`: the first six bytes, ASCII-lowercased,
are `b"basic "`. -/
def basic_is_credential (h : List Nat) : Bool :=
  ((h.take 6).map byteLower) = encodeUtf8 ("basic ".toList)

/-- `HTTPBasicAuth.verify_user`: look the bytes after the six-byte scheme
tag up in the shared credential map. -/
def basic_verify_user (cred_map : PyDict (List Nat) DAVUser)
    (authorization_header : List Nat) : Option DAVUser :=
  dlookup (authorization_header.drop 6) cred_map

/-- `HTTPDigestAuth.is_credential`: the first seven bytes, ASCII-lowercased,
are `b"digest "`. -/
def digest_is_credential (h : List Nat) : Bool :=
  ((h.take 7).map byteLower) = encodeUtf8 ("digest ".toList)

/-- `DIGEST_AUTHORIZATION_PARAMS`: the ten required Digest fields. -/
def required_digest_params : List (List Char) :=
  [("username".toList), ("realm".toList), ("nonce".toList), ("uri".toList),
   ("response".toList), ("algorithm".toList), ("opaque".toList), ("qop".toList),
   ("nc".toList), ("cnonce".toList)]

/-- Value part of one parsed `Authorization` fragment:
`v.strip(' "').rstrip(' "').strip("'").rstrip("'")` (the two `rstrip` calls
are identities after the preceding `strip` of the same character set). -/
def stripValue (v : List Char) : List Char :=
  stripCs [Char.ofNat 39] (stripCs [' ', Char.ofNat 34] v)

/-- One iteration of the parse loop of
`HTTPDigestAuth.authorization_str_parser_to_data`: split the fragment at the
first `=` (a fragment without `=` raises `ValueError`, which is caught,
logged and skipped), strip spaces from the key and quotes/spaces from the
value. -/
def parseFragment (frag : List Char) : Option (List Char × List Char) :=
  match splitFirst '=' frag with
  | none => none
  | some (k, v) => some (stripCs [' '] k, stripValue v)

/-- Loop body of `HTTPDigestAuth.authorization_str_parser_to_data`: a parsed
fragment is inserted into the dict, a malformed one (caught `ValueError`) is
logged and skipped. -/
def parse_step (d : PyDict (List Char) (List Char)) (frag : List Char) :
    PyDict (List Char) (List Char) :=
  match parseFragment frag with
  | none => d
  | some kv => dinsert kv.1 kv.2 d

/-- `HTTPDigestAuth.authorization_str_parser_to_data`: split on commas,
parse each fragment, build the ordered field dict; malformed fragments are
skipped. -/
def authorization_str_parser_to_data (authorization : List Char) :
    PyDict (List Char) (List Char) :=
  (splitOnChar ',' authorization).foldl parse_step []

/-- `HTTPDigestAuth.authorization_string_build_from_data`:
`", ".join(['%s="%s"' % (k, v) for (k, v) in data.items()])`. -/
def authorization_string_build_from_data (data : PyDict (List Char) (List Char)) :
    List Char :=
  joinSep (", ".toList)
    (data.map (fun kv => kv.1 ++ ("=".toList) ++ [Char.ofNat 34] ++ kv.2 ++ [Char.ofNat 34]))

/-- Side conditions on one key/value pair under which building and re-parsing
an authorization string reproduces the pair exactly: no comma in key or
value, no equals sign in the key, no double or single quote in the value,
and no leading/trailing spaces on either (stated as strip-fixpoints). -/
abbrev roundtrip_safe (kv : List Char × List Char) : Prop :=
  (',' ∉ kv.1) ∧ ('=' ∉ kv.1) ∧ stripCs [' '] kv.1 = kv.1 ∧
  (',' ∉ kv.2) ∧ (Char.ofNat 34 ∉ kv.2) ∧ (Char.ofNat 39 ∉ kv.2) ∧
  stripCs [' '] kv.2 = kv.2

/-- `HTTPDigestAuth.build_md5_digest`:
`md5(":".join(data).encode("utf-8")).hexdigest()`. -/
def build_md5_digest (md5hex : List Char → List Char) (data : List (List Char)) :
    List Char :=
  md5hex (joinSep (":".toList) data)

/-- `HTTPDigestAuth.build_ha1_ha2_digest`: `HA1 = MD5(username:realm:password)`,
`HA2 = MD5(method:uri)`. -/
def build_ha1_ha2_digest (md5hex : List Char → List Char)
    (realm username password method uri : List Char) : List Char × List Char :=
  (build_md5_digest md5hex [username, realm, password],
   build_md5_digest md5hex [method, uri])

/-- `HTTPDigestAuth.build_request_digest`.  Dict accesses use `.get`, which
yields `None` for an absent key; a `None` reaching `":".join` raises
`TypeError`, modelled by `none`. -/
def build_request_digest (md5hex : List Char → List Char) (realm : List Char)
    (user : DAVUser) (method : List Char)
    (digest_auth_data : PyDict (List Char) (List Char)) : Option (List Char) := do
  let uri ← dlookup ("uri".toList) digest_auth_data
  let hh := build_ha1_ha2_digest md5hex realm user.username user.password method uri
  if dlookup ("qop".toList) digest_auth_data = some ("auth".toList) then do
    let nonce ← dlookup ("nonce".toList) digest_auth_data
    let nc ← dlookup ("nc".toList) digest_auth_data
    let cnonce ← dlookup ("cnonce".toList) digest_auth_data
    pure (build_md5_digest md5hex [hh.1, nonce, nc, cnonce, ("auth".toList), hh.2])
  else do
    let nonce ← dlookup ("nonce".toList) digest_auth_data
    pure (build_md5_digest md5hex [hh.1, nonce, hh.2])

/-- `HTTPDigestAuth.make_response_authentication_info_string`: compute
`rspauth = MD5(HA1:nonce:nc:cnonce:qop:HA2)` and serialize the dict
`{"rspauth": …, "qop": …, "cnonce": …, "nc": …}` through
`authorization_string_build_from_data`, UTF-8 encoded. -/
def make_response_authentication_info_string (md5hex : List Char → List Char)
    (realm : List Char) (user : DAVUser) (method : List Char)
    (digest_auth_data : PyDict (List Char) (List Char)) : Option (List Nat) := do
  let uri ← dlookup ("uri".toList) digest_auth_data
  let hh := build_ha1_ha2_digest md5hex realm user.username user.password method uri
  let nonce ← dlookup ("nonce".toList) digest_auth_data
  let nc ← dlookup ("nc".toList) digest_auth_data
  let cnonce ← dlookup ("cnonce".toList) digest_auth_data
  let qop ← dlookup ("qop".toList) digest_auth_data
  let rspauth := build_md5_digest md5hex [hh.1, nonce, nc, cnonce, qop, hh.2]
  pure (encodeUtf8 (authorization_string_build_from_data
    [(("rspauth".toList), rspauth), (("qop".toList), qop),
     (("cnonce".toList), cnonce), (("nc".toList), nc)]))

/-- Shared mutable state of `DAVAuth`: the class-level `user_mapping` and the
class-level `HTTPBasicAuth.credential_user_mapping` (both are class
attributes, initialized once, mutated - never rebound - by constructions). -/
structure DAVAuthState where
  realm : List Char
  user_mapping : PyDict (List Char) DAVUser
  credential_user_mapping : PyDict (List Nat) DAVUser
deriving DecidableEq

/-- Modelled from the spec: a configured account (from
`config.account_mapping`, whose `Config` type is not part of the sources) is
a `{username, password, permissions, isAdmin}` record, from which
`DAVAuth.__init__` builds a `DAVUser` field by field; accounts are therefore
represented directly as `DAVUser` values. -/
def DAVAccount := DAVUser

/-- `DAVAuth.__init__` acting on the shared class-level state: register every
account into `user_mapping`, then run `HTTPBasicAuth.__init__` over the whole
accumulated `user_mapping`.  The realm is the class constant. -/
def dav_auth_init (st : DAVAuthState) (accounts : List DAVUser) : DAVAuthState :=
  let um := dinsertAll (fun a : DAVUser => a.username) (fun a => a) accounts st.user_mapping
  { realm := "ASGI-WebDAV".toList,
    user_mapping := um,
    credential_user_mapping := http_basic_auth_register st.credential_user_mapping um }

/-- Fresh shared state (process start, before any construction). -/
def emptyAuthState : DAVAuthState :=
  { realm := "ASGI-WebDAV".toList, user_mapping := [], credential_user_mapping := [] }

/-- `DAVAuth.pick_out_user`.  The outer `Option` models uncaught exceptions:
`none` is the `UnicodeDecodeError` raised by
`authorization_header[7:].decode("utf-8")` on non-UTF-8 bytes (or a
`TypeError` from a digest computation on missing fields, unreachable after
the ten-field check).  `some (user?, reason)` is a normal return. -/
def pick_out_user (md5hex : List Char → List Char) (st : DAVAuthState)
    (headers : PyDict (List Nat) (List Nat)) (method : List Char) :
    Option (Option DAVUser × List Char) :=
  match dlookup (encodeUtf8 ("authorization".toList)) headers with
  | none => some (none, "miss header: authorization".toList)
  | some authorization_header =>
    if basic_is_credential authorization_header then
      match basic_verify_user st.credential_user_mapping authorization_header with
      | none => some (none, "no permission".toList)
      | some user => some (some user, [])
    else if digest_is_credential authorization_header then
      match decodeUtf8 (authorization_header.drop 7) with
      | none => none
      | some s =>
        let digest_auth_data := authorization_str_parser_to_data s
        if !(required_digest_params.all
              (fun p => (dlookup p digest_auth_data).isSome)) then
          some (none, "no permission".toList)
        else
          match (dlookup ("username".toList) digest_auth_data).bind
              (fun u => dlookup u st.user_mapping) with
          | none => some (none, "no permission".toList)
          | some user =>
            match build_request_digest md5hex st.realm user method digest_auth_data with
            | none => none
            | some expected =>
              if !(dlookup ("response".toList) digest_auth_data = some expected) then
                some (none, "no permission".toList)
              else
                match make_response_authentication_info_string md5hex st.realm user
                    method digest_auth_data with
                | none => none
                | some _info => some (some user, [])
    else
      some (none, "Unknown authentication method".toList)

/-! ## Response model (src/asgi_webdav/response.py) -/

/-- `DAVResponseType`. -/
inductive DAVResponseType
  | UNDECIDED
  | HTML
  | XML
deriving DecidableEq

/-- Response content variants accepted by `DAVResponse.set_content`:
`bytes`, an `AsyncGenerator` (stream) or `DAVZeroCopySendData`. -/
inductive DAVContent
  | byteData (b : List Nat)
  | stream
  | zerocopy
deriving DecidableEq

/-- Observable fields of a `DAVResponse` after `__init__`.  `content_length`
is an `Int` because the range arithmetic `content_length - content_range_start`
is Python integer subtraction. -/
structure DAVResponseModel where
  status : Nat
  headers : PyDict (List Nat) (List Nat)
  content_length : Option Int
  content_range : Bool
  content_range_start : Option Nat
deriving DecidableEq

/-- Header key `b"Content-Range"`. -/
def contentRangeKey : List Nat := encodeUtf8 ("Content-Range".toList)

/-- Header key `b"Content-Length"`. -/
def contentLengthKey : List Nat := encodeUtf8 ("Content-Length".toList)

/-- Header key `b"Content-Encoding"`. -/
def contentEncodingKey : List Nat := encodeUtf8 ("Content-Encoding".toList)

/-- `DAVResponse.__init__`: build the base headers from the response type,
merge the extension headers, set the content (which fixes `content_length`
for bytes content), apply an explicit `content_length`, and when both a
total length and a range start are given install the `Content-Range` header
`bytes {start}-{length}/{length}` and the remaining length
`content_length - content_range_start`. -/
def dav_response_init (status : Nat)
    (headers : Option (PyDict (List Nat) (List Nat)))
    (response_type : DAVResponseType) (content : DAVContent)
    (content_length : Option Nat) (content_range_start : Option Nat) :
    DAVResponseModel :=
  let base : PyDict (List Nat) (List Nat) :=
    match response_type with
    | DAVResponseType.HTML =>
      [(encodeUtf8 ("Content-Type".toList), encodeUtf8 ("text/html".toList))]
    | DAVResponseType.XML =>
      [(encodeUtf8 ("Content-Type".toList), encodeUtf8 ("application/xml".toList))]
    | DAVResponseType.UNDECIDED => []
  let hs :=
    match headers with
    | none => base
    | some h => dupdate base h
  let cl0 : Option Int :=
    match content with
    | DAVContent.byteData b => some (b.length : Int)
    | _ => none
  let cl1 : Option Int :=
    match content_length with
    | none => cl0
    | some L => some (L : Int)
  match content_length, content_range_start with
  | some L, some S =>
    { status := status,
      headers := dinsert contentRangeKey
        (encodeUtf8 (("bytes ".toList) ++ natToStr S ++ ("-".toList) ++
          natToStr L ++ ("/".toList) ++ natToStr L)) hs,
      content_length := some ((L : Int) - (S : Int)),
      content_range := true,
      content_range_start := some S }
  | _, _ =>
    { status := status, headers := hs, content_length := cl1,
      content_range := false, content_range_start := none }

/-- ASGI messages emitted through `request.send`. -/
inductive ASGIMsg
  | start (status : Nat) (headers : PyDict (List Nat) (List Nat))
  | body (b : List Nat) (more : Bool)
deriving DecidableEq

/-- Number of `http.response.start` frames in a message list. -/
def startCount : List ASGIMsg → Nat
  | [] => 0
  | ASGIMsg.start _ _ :: t => startCount t + 1
  | ASGIMsg.body _ _ :: t => startCount t

/-- Loop of `CompressionSenderAbc.send`, parameterized over the codec:
`writeC st chunk` returns the codec state and the bytes `self.write(chunk)`
adds to the buffer, `closeC st` the bytes `self.close()` flushes.  Each
iteration compresses one source chunk, drains the buffer, and on the first
iteration decides the `Content-Length` header (declared when the first chunk
is final, dropped otherwise) before sending the single header frame. -/
def compression_send_loop {σ : Type} (writeC : σ → List Nat → σ × List Nat)
    (closeC : σ → List Nat) (status : Nat) :
    PyDict (List Nat) (List Nat) → Bool → σ → List (List Nat × Bool) → List ASGIMsg
  | _, _, _, [] => []
  | headers, first, st, (chunk, more) :: rest =>
    let ws := writeC st chunk
    let out := if more then ws.2 else ws.2 ++ closeC ws.1
    if first then
      let headers2 :=
        if more then dpop contentLengthKey headers
        else dinsert contentLengthKey (encodeUtf8 (natToStr out.length)) headers
      ASGIMsg.start status headers2 :: ASGIMsg.body out more ::
        compression_send_loop writeC closeC status headers2 false ws.1 rest
    else
      ASGIMsg.body out more ::
        compression_send_loop writeC closeC status headers false ws.1 rest

/-- `CompressionSenderAbc.send`: install `Content-Encoding: <name>`, then run
the per-chunk loop with the `first` flag set. -/
def compression_send {σ : Type} (writeC : σ → List Nat → σ × List Nat)
    (closeC : σ → List Nat) (name : List Nat) (status : Nat)
    (headers : PyDict (List Nat) (List Nat)) (st : σ)
    (chunks : List (List Nat × Bool)) : List ASGIMsg :=
  compression_send_loop writeC closeC status
    (dinsert contentEncodingKey name headers) true st chunks

/-! ## Regular expressions (model of the `re` usage in `DAVHideFileInDir`)

The hide-file rules are matched with `re.match(rule, text)`, which anchors
the match at position 0 and succeeds when any prefix of `text` matches.  The
model is a small regex core - literals, `.`, `^`, alternation, concatenation,
`*`/`+`/`?` - which covers the patterns this component is specified with;
unsupported constructs make the pattern-compiling function return `none`
(`re` raises on genuinely malformed patterns). -/

/-- Regex abstract syntax. -/
inductive RE
  | eps
  | lit (c : Char)
  | dot
  | bol
  | cat (a b : RE)
  | alt (a b : RE)
  | star (a : RE)
deriving DecidableEq

/-- Size of a regex term (for fuel bookkeeping). -/
def reSize : RE → Nat
  | RE.eps => 1
  | RE.lit _ => 1
  | RE.dot => 1
  | RE.bol => 1
  | RE.cat a b => reSize a + reSize b + 1
  | RE.alt a b => reSize a + reSize b + 1
  | RE.star a => reSize a + 1

/-- End positions reachable by matching `r` in `s` starting at position `i`.
Fuel-indexed so the function is structurally recursive; `reFuel` below always
supplies enough fuel for every derivation. -/
def reEnds (s : List Char) : Nat → RE → Nat → List Nat
  | 0, _, _ => []
  | fuel + 1, r, i =>
    match r with
    | RE.eps => [i]
    | RE.lit c =>
      match (s.drop i).head? with
      | some c0 => if c0 = c then [i + 1] else []
      | none => []
    | RE.dot => if i < s.length then [i + 1] else []
    | RE.bol => if i = 0 then [i] else []
    | RE.cat a b => ((reEnds s fuel a i).map (fun j => reEnds s fuel b j)).flatten
    | RE.alt a b => reEnds s fuel a i ++ reEnds s fuel b i
    | RE.star a =>
      i :: (((reEnds s fuel a i).filter (fun j => i < j)).map
        (fun j => reEnds s fuel (RE.star a) j)).flatten

/-- Fuel bound: one unit per AST node per possible position. -/
def reFuel (r : RE) (s : List Char) : Nat := (reSize r + 1) * (s.length + 2)

/-- Compiled-pattern prefix-anchored match, the model of `re.match(r, s)`
truthiness: some end position is reachable from position 0. -/
def reMatches (r : RE) (s : List Char) : Bool :=
  !(reEnds s (reFuel r s) r 0).isEmpty

/-- One atom of the pattern grammar: an escaped literal, `.`, `^`, or a plain
literal character; quantifiers, `|` and unsupported constructs are rejected
here. -/
def parseAtom : List Char → Option (RE × List Char)
  | [] => none
  | c :: rest =>
    if c = '\\' then
      match rest with
      | [] => none
      | e :: rest2 => if e.isAlphanum then none else some (RE.lit e, rest2)
    else if c = '.' then some (RE.dot, rest)
    else if c = '^' then some (RE.bol, rest)
    else if c = '|' || c = '*' || c = '+' || c = '?' || c = '(' || c = ')' ||
        c = '[' || c = ']' || c = '$' then none
    else some (RE.lit c, rest)

/-- Apply a quantifier character to an atom. -/
def applyQuant (r : RE) (c : Char) : RE :=
  if c = '*' then RE.star r
  else if c = '+' then RE.cat r (RE.star r)
  else RE.alt r RE.eps

/-- Concatenation level of the pattern grammar: read atoms (each with at most
one quantifier) until `|` or the end of the pattern. -/
def parseCat : Nat → RE → List Char → Option (RE × List Char)
  | 0, _, _ => none
  | fuel + 1, acc, s =>
    match s with
    | [] => some (acc, [])
    | c :: rest =>
      if c = '|' then some (acc, c :: rest)
      else
        match parseAtom (c :: rest) with
        | none => none
        | some (a, rest2) =>
          match rest2 with
          | q :: rest3 =>
            if q = '*' || q = '+' || q = '?' then
              parseCat fuel (RE.cat acc (applyQuant a q)) rest3
            else parseCat fuel (RE.cat acc a) rest2
          | [] => parseCat fuel (RE.cat acc a) []

/-- Alternation level of the pattern grammar. -/
def parseAltFuel : Nat → List Char → Option RE
  | 0, _ => none
  | fuel + 1, s =>
    match parseCat (s.length + 1) RE.eps s with
    | none => none
    | some (r, rest) =>
      match rest with
      | [] => some r
      | _ :: rest2 => (parseAltFuel fuel rest2).map (fun r2 => RE.alt r r2)

/-- Compile a pattern string; `none` models a pattern the model does not
cover (or that `re` rejects). -/
def compilePattern (p : List Char) : Option RE := parseAltFuel (p.length + 1) p

/-- Model of `re.match(pattern, s) is not None` truthiness; `none` when the
pattern does not compile. -/
def re_match (pattern s : List Char) : Option Bool :=
  (compilePattern pattern).map (fun r => reMatches r s)

/-! ## Directory-entry hiding (`DAVHideFileInDir`) -/

/-- Modelled from the spec: the `hide_file_in_dir` slice of `Config` (the
`Config` type is not part of the sources) is
`{enable, enableDefaultRules, userRules: mapping[userAgentRegex] -> fileNameRegex}`. -/
structure HideFileInDirConfig where
  enable : Bool
  enable_default_rules : Bool
  user_rules : PyDict (List Char) (List Char)

/-- Observable state of a `DAVHideFileInDir` instance. -/
structure DAVHideFileInDirModel where
  enable : Bool
  data_rules : PyDict (List Char) (List Char)
  data_rules_basic : Option (List Char)
  ua_to_rule_mapping : PyDict (List Char) (List Char)
deriving DecidableEq

/-- `DAVHideFileInDir._merge_rules`: alternation by string concatenation. -/
def merge_rules : Option (List Char) → List Char → List Char
  | none, b => b
  | some a, b => a ++ ("|".toList) ++ b

/-- `DAVHideFileInDir.__init__`.  `DEFAULT_HIDE_FILE_IN_DIR_RULES` lives in
`asgi_webdav.constants` (not part of the sources) and is passed in as the
`defaults` parameter.  Same-key user rules are merged into the default rules
by alternation; the rule under the empty user-agent key is popped off as the
basic (fallback) rule and merged into every remaining rule. -/
def hide_file_init (defaults : PyDict (List Char) (List Char))
    (cfg : HideFileInDirConfig) : DAVHideFileInDirModel :=
  if !cfg.enable then
    { enable := false, data_rules := [], data_rules_basic := none,
      ua_to_rule_mapping := [] }
  else
    let dr0 : PyDict (List Char) (List Char) :=
      if cfg.enable_default_rules then dupdate [] defaults else []
    let dr1 := cfg.user_rules.foldl
      (fun m kv =>
        match dlookup kv.1 m with
        | some v0 => dinsert kv.1 (merge_rules (some v0) kv.2) m
        | none => dinsert kv.1 kv.2 m) dr0
    match dlookup ([] : List Char) dr1 with
    | some basic =>
      { enable := true,
        data_rules := (dpop ([] : List Char) dr1).map
          (fun kv => (kv.1, merge_rules (some basic) kv.2)),
        data_rules_basic := some basic,
        ua_to_rule_mapping := [] }
    | none =>
      { enable := true, data_rules := dr1, data_rules_basic := none,
        ua_to_rule_mapping := [] }

/-- Scan of `DAVHideFileInDir.get_rule_by_client_user_agent`: first rule
whose user-agent pattern matches the user-agent, else the basic rule.  The
outer `Option` models a raised `re.error` on an uncompilable pattern. -/
def get_rule_scan (ua : List Char) (basic : Option (List Char)) :
    PyDict (List Char) (List Char) → Option (Option (List Char))
  | [] => some basic
  | (k, v) :: t =>
    match re_match k ua with
    | none => none
    | some true => some (some v)
    | some false => get_rule_scan ua basic t

/-- `DAVHideFileInDir.get_rule_by_client_user_agent`. -/
def get_rule_by_client_user_agent (m : DAVHideFileInDirModel) (ua : List Char) :
    Option (Option (List Char)) :=
  get_rule_scan ua m.data_rules_basic m.data_rules

/-- `DAVHideFileInDir.is_match_hide_file_in_dir`: `False` when disabled;
otherwise resolve the rule through the user-agent cache (populating it on a
miss) and test the file name with `re.match`.  Returns the decision together
with the updated instance state; the outer `Option` models a raised
`re.error`. -/
def is_match_hide_file_in_dir (m : DAVHideFileInDirModel)
    (ua file_name : List Char) : Option (Bool × DAVHideFileInDirModel) :=
  if !m.enable then some (false, m)
  else
    match dlookup ua m.ua_to_rule_mapping with
    | some rule => (re_match rule file_name).map (fun b => (b, m))
    | none =>
      match get_rule_by_client_user_agent m ua with
      | none => none
      | some none => some (false, m)
      | some (some rule) =>
        let m2 := { m with ua_to_rule_mapping := dinsert ua rule m.ua_to_rule_mapping }
        (re_match rule file_name).map (fun b => (b, m2))

/-! ## Dictionary lemmas -/

section DictLemmas

variable {α β γ : Type} [DecidableEq α]

@[simp]
theorem dlookup_nil (k : α) : dlookup k ([] : PyDict α β) = none := rfl

@[simp]
theorem dlookup_cons (k k0 : α) (v0 : β) (t : PyDict α β) :
    dlookup k ((k0, v0) :: t) = if k0 = k then some v0 else dlookup k t := rfl

theorem dinsert_cons (k k0 : α) (v v0 : β) (t : PyDict α β) :
    dinsert k v ((k0, v0) :: t) =
      if k0 = k then (k0, v) :: t else (k0, v0) :: dinsert k v t := rfl

theorem dpop_cons (k k0 : α) (v0 : β) (t : PyDict α β) :
    dpop k ((k0, v0) :: t) = if k0 = k then t else (k0, v0) :: dpop k t := rfl

@[simp]
theorem dlookup_dinsert_self (k : α) (v : β) (m : PyDict α β) :
    dlookup k (dinsert k v m) = some v := by
  induction m with
  | nil => simp [dinsert]
  | cons p t ih =>
    obtain ⟨k0, v0⟩ := p
    by_cases h : k0 = k <;> simp [dinsert, h, ih]

theorem dlookup_dinsert_ne (k2 k : α) (v : β) (m : PyDict α β) (h : k2 ≠ k) :
    dlookup k (dinsert k2 v m) = dlookup k m := by
  induction m with
  | nil => simp [dinsert, h]
  | cons p t ih =>
    obtain ⟨k0, v0⟩ := p
    by_cases h0 : k0 = k2
    · subst h0; simp [dinsert, h]
    · simp [dinsert, h0, ih]

theorem isSome_dlookup_dinsert (k2 k : α) (v : β) (m : PyDict α β)
    (h : (dlookup k m).isSome) : (dlookup k (dinsert k2 v m)).isSome := by
  by_cases hk : k2 = k
  · subst hk; simp
  · rwa [dlookup_dinsert_ne k2 k v m hk]

theorem mem_keys_dinsert (a k : α) (v : β) (m : PyDict α β) :
    a ∈ (dinsert k v m).map Prod.fst ↔ a = k ∨ a ∈ m.map Prod.fst := by
  induction m with
  | nil => simp only [dinsert, List.map_cons, List.map_nil, List.mem_cons,
      List.not_mem_nil, or_false]
  | cons p t ih =>
    obtain ⟨k0, v0⟩ := p
    by_cases h : k0 = k
    · subst h
      rw [dinsert_cons, if_pos rfl]
      simp only [List.map_cons, List.mem_cons]
      tauto
    · rw [dinsert_cons, if_neg h]
      simp only [List.map_cons, List.mem_cons, ih]
      tauto

theorem nodup_keys_dinsert (k : α) (v : β) (m : PyDict α β)
    (h : (m.map Prod.fst).Nodup) : ((dinsert k v m).map Prod.fst).Nodup := by
  induction m with
  | nil => simp [dinsert]
  | cons p t ih =>
    obtain ⟨k0, v0⟩ := p
    rw [List.map_cons, List.nodup_cons] at h
    by_cases h0 : k0 = k
    · subst h0
      rw [dinsert_cons, if_pos rfl, List.map_cons, List.nodup_cons]
      exact h
    · rw [dinsert_cons, if_neg h0, List.map_cons, List.nodup_cons]
      refine ⟨fun hmem => ?_, ih h.2⟩
      rcases (mem_keys_dinsert k0 k v t).mp hmem with he | hmem2
      · exact h0 he
      · exact h.1 hmem2

theorem dlookup_eq_none_of_not_mem_keys (k : α) (m : PyDict α β)
    (h : k ∉ m.map Prod.fst) : dlookup k m = none := by
  induction m with
  | nil => rfl
  | cons p t ih =>
    obtain ⟨k0, v0⟩ := p
    rw [List.map_cons, List.mem_cons, not_or] at h
    rw [dlookup_cons, if_neg (fun he => h.1 he.symm), ih h.2]

theorem isSome_dlookup_iff_mem_keys (k : α) (m : PyDict α β) :
    (dlookup k m).isSome ↔ k ∈ m.map Prod.fst := by
  induction m with
  | nil => simp
  | cons p t ih =>
    obtain ⟨k0, v0⟩ := p
    rw [dlookup_cons, List.map_cons, List.mem_cons]
    by_cases h : k0 = k
    · simp [h]
    · rw [if_neg h, ih]
      constructor
      · exact Or.inr
      · rintro (he | hm)
        · exact absurd he.symm h
        · exact hm

theorem mem_of_dlookup_eq_some (k : α) (v : β) (m : PyDict α β)
    (h : dlookup k m = some v) : (k, v) ∈ m := by
  induction m with
  | nil => simp [dlookup] at h
  | cons p t ih =>
    obtain ⟨k0, v0⟩ := p
    rw [dlookup_cons] at h
    by_cases h0 : k0 = k
    · rw [if_pos h0] at h
      subst h0
      rw [List.mem_cons]
      left
      rw [Option.some_inj] at h
      rw [h]
    · rw [if_neg h0] at h
      exact List.mem_cons_of_mem _ (ih h)

theorem dlookup_dpop_self (k : α) (m : PyDict α β)
    (h : (m.map Prod.fst).Nodup) : dlookup k (dpop k m) = none := by
  induction m with
  | nil => rfl
  | cons p t ih =>
    obtain ⟨k0, v0⟩ := p
    rw [List.map_cons, List.nodup_cons] at h
    by_cases h0 : k0 = k
    · subst h0
      rw [dpop_cons, if_pos rfl]
      exact dlookup_eq_none_of_not_mem_keys _ _ h.1
    · rw [dpop_cons, if_neg h0, dlookup_cons, if_neg h0, ih h.2]

theorem dinsert_eq_append_of_not_mem (k : α) (v : β) (m : PyDict α β)
    (h : k ∉ m.map Prod.fst) : dinsert k v m = m ++ [(k, v)] := by
  induction m with
  | nil => rfl
  | cons p t ih =>
    obtain ⟨k0, v0⟩ := p
    rw [List.map_cons, List.mem_cons, not_or] at h
    rw [dinsert_cons, if_neg (fun he => h.1 he.symm), ih h.2, List.cons_append]

theorem dlookup_append_of_left_none (k : α) (m1 m2 : PyDict α β)
    (h : dlookup k m1 = none) : dlookup k (m1 ++ m2) = dlookup k m2 := by
  induction m1 with
  | nil => rfl
  | cons p t ih =>
    obtain ⟨k0, v0⟩ := p
    by_cases h0 : k0 = k
    · simp [h0] at h
    · simp [h0] at h ⊢
      exact ih h

@[simp]
theorem dinsertAll_nil (keyfn : γ → α) (valfn : γ → β) (m : PyDict α β) :
    dinsertAll keyfn valfn [] m = m := rfl

@[simp]
theorem dinsertAll_cons (keyfn : γ → α) (valfn : γ → β) (x : γ) (l : List γ)
    (m : PyDict α β) :
    dinsertAll keyfn valfn (x :: l) m =
      dinsertAll keyfn valfn l (dinsert (keyfn x) (valfn x) m) := rfl

theorem dlookup_dinsertAll_of_not_mem (keyfn : γ → α) (valfn : γ → β) (k : α)
    (l : List γ) (m : PyDict α β) (h : k ∉ l.map keyfn) :
    dlookup k (dinsertAll keyfn valfn l m) = dlookup k m := by
  induction l generalizing m with
  | nil => rfl
  | cons x t ih =>
    rw [List.map_cons, List.mem_cons, not_or] at h
    rw [dinsertAll_cons, ih _ h.2, dlookup_dinsert_ne _ _ _ _ (fun he => h.1 he.symm)]

theorem isSome_dlookup_dinsertAll (keyfn : γ → α) (valfn : γ → β) (k : α)
    (l : List γ) (m : PyDict α β) (h : (dlookup k m).isSome) :
    (dlookup k (dinsertAll keyfn valfn l m)).isSome := by
  induction l generalizing m with
  | nil => exact h
  | cons x t ih => exact ih _ (isSome_dlookup_dinsert _ _ _ _ h)

theorem isSome_dlookup_dinsertAll_of_mem (keyfn : γ → α) (valfn : γ → β)
    (x : γ) (l : List γ) (m : PyDict α β) (h : x ∈ l) :
    (dlookup (keyfn x) (dinsertAll keyfn valfn l m)).isSome := by
  induction l generalizing m with
  | nil => simp at h
  | cons y t ih =>
    rw [dinsertAll_cons]
    rcases List.mem_cons.mp h with h1 | h1
    · subst h1
      exact isSome_dlookup_dinsertAll _ _ _ _ _ (by simp)
    · exact ih _ h1

theorem dlookup_dinsertAll_of_nodup (keyfn : γ → α) (valfn : γ → β) (x : γ)
    (l : List γ) (m : PyDict α β) (hnd : (l.map keyfn).Nodup) (hx : x ∈ l) :
    dlookup (keyfn x) (dinsertAll keyfn valfn l m) = some (valfn x) := by
  induction l generalizing m with
  | nil => simp at hx
  | cons y t ih =>
    rw [List.map_cons, List.nodup_cons] at hnd
    rcases List.mem_cons.mp hx with h1 | h1
    · subst h1
      rw [dinsertAll_cons, dlookup_dinsertAll_of_not_mem _ _ _ _ _ hnd.1]
      simp
    · exact ih _ hnd.2 h1

theorem dinsertAll_eq_append (keyfn : γ → α) (valfn : γ → β) (l : List γ)
    (m : PyDict α β) (hnd : (l.map keyfn).Nodup)
    (hm : ∀ x ∈ l, dlookup (keyfn x) m = none) :
    dinsertAll keyfn valfn l m = m ++ l.map (fun x => (keyfn x, valfn x)) := by
  induction l generalizing m with
  | nil => simp
  | cons x t ih =>
    rw [List.map_cons, List.nodup_cons] at hnd
    rw [dinsertAll_cons,
      dinsert_eq_append_of_not_mem _ _ _
        (by rw [← isSome_dlookup_iff_mem_keys, hm x (by simp)]; simp),
      ih _ hnd.2 ?_, List.append_assoc]
    · simp
    · intro y hy
      rw [dlookup_append_of_left_none _ _ _ (hm y (by simp [hy]))]
      have hne : keyfn x ≠ keyfn y := by
        intro he
        exact hnd.1 (he ▸ List.mem_map_of_mem keyfn hy)
      simp [hne]

theorem mem_map_snd_dinsert (x : β) (k : α) (v : β) (m : PyDict α β)
    (h : x ∈ (dinsert k v m).map Prod.snd) : x = v ∨ x ∈ m.map Prod.snd := by
  induction m with
  | nil =>
    simp [dinsert] at h
    exact Or.inl h
  | cons p t ih =>
    obtain ⟨k0, v0⟩ := p
    by_cases h0 : k0 = k
    · rw [dinsert_cons, if_pos h0, List.map_cons, List.mem_cons] at h
      rcases h with h | h
      · exact Or.inl h
      · exact Or.inr (List.mem_cons_of_mem _ h)
    · rw [dinsert_cons, if_neg h0, List.map_cons, List.mem_cons] at h
      rcases h with h | h
      · exact Or.inr (by simp [h])
      · rcases ih h with h | h
        · exact Or.inl h
        · exact Or.inr (List.mem_cons_of_mem _ h)

theorem mem_map_snd_dinsertAll (keyfn : γ → α) (valfn : γ → β) (x : β)
    (l : List γ) (m : PyDict α β)
    (h : x ∈ (dinsertAll keyfn valfn l m).map Prod.snd) :
    x ∈ m.map Prod.snd ∨ ∃ y ∈ l, valfn y = x := by
  induction l generalizing m with
  | nil => exact Or.inl h
  | cons y t ih =>
    rw [dinsertAll_cons] at h
    rcases ih _ h with h1 | h1
    · rcases mem_map_snd_dinsert x _ _ _ h1 with h2 | h2
      · exact Or.inr ⟨y, by simp, h2.symm⟩
      · exact Or.inl h2
    · obtain ⟨z, hz, hzx⟩ := h1
      exact Or.inr ⟨z, List.mem_cons_of_mem _ hz, hzx⟩

theorem mem_keys_dinsertAll (keyfn : γ → α) (valfn : γ → β) (k : α)
    (l : List γ) (m : PyDict α β)
    (h : k ∈ (dinsertAll keyfn valfn l m).map Prod.fst) :
    k ∈ m.map Prod.fst ∨ ∃ y ∈ l, keyfn y = k := by
  induction l generalizing m with
  | nil => exact Or.inl h
  | cons y t ih =>
    rw [dinsertAll_cons] at h
    rcases ih _ h with h1 | h1
    · rcases (mem_keys_dinsert k _ _ _).mp h1 with h2 | h2
      · exact Or.inr ⟨y, by simp, h2.symm⟩
      · exact Or.inl h2
    · obtain ⟨z, hz, hzk⟩ := h1
      exact Or.inr ⟨z, List.mem_cons_of_mem _ hz, hzk⟩

end DictLemmas

/-! ## Scheme-tag and framing lemmas -/

theorem basic_is_credential_append (t : List Nat) :
    basic_is_credential (encodeUtf8 ("Basic ".toList) ++ t) = true := by
  have h6 : (encodeUtf8 ("Basic ".toList)).length = 6 := by decide
  unfold basic_is_credential
  rw [List.take_left' h6]
  decide

theorem basic_verify_append (cm : PyDict (List Nat) DAVUser) (t : List Nat) :
    basic_verify_user cm (encodeUtf8 ("Basic ".toList) ++ t) = dlookup t cm := by
  have h6 : (encodeUtf8 ("Basic ".toList)).length = 6 := by decide
  unfold basic_verify_user
  rw [List.drop_left' h6]

theorem basic_is_credential_false_of_digest (h : List Nat)
    (hd : digest_is_credential h = true) : basic_is_credential h = false := by
  unfold digest_is_credential at hd
  unfold basic_is_credential
  have h7 : (h.take 7).map byteLower = encodeUtf8 ("digest ".toList) := by
    simpa using hd
  have h6 : (h.take 6).map byteLower = ((h.take 7).map byteLower).take 6 := by
    rw [← List.map_take, List.take_take]
    norm_num
  rw [h6, h7]
  decide

theorem pick_out_user_basic_header (md5hex : List Char → List Char)
    (st : DAVAuthState) (t : List Nat) (method : List Char) :
    pick_out_user md5hex st
      [(encodeUtf8 ("authorization".toList), encodeUtf8 ("Basic ".toList) ++ t)]
      method =
      match dlookup t st.credential_user_mapping with
      | none => some (none, "no permission".toList)
      | some user => some (some user, []) := by
  have hH : dlookup (encodeUtf8 ("authorization".toList))
      [(encodeUtf8 ("authorization".toList), encodeUtf8 ("Basic ".toList) ++ t)] =
      some (encodeUtf8 ("Basic ".toList) ++ t) := by simp
  simp only [pick_out_user, hH, basic_is_credential_append, basic_verify_append,
    if_true]

theorem build_request_digest_isSome (md5hex : List Char → List Char)
    (realm : List Char) (user : DAVUser) (method : List Char)
    (d : PyDict (List Char) (List Char))
    (hu : (dlookup ("uri".toList) d).isSome)
    (hn : (dlookup ("nonce".toList) d).isSome)
    (hnc : (dlookup ("nc".toList) d).isSome)
    (hcn : (dlookup ("cnonce".toList) d).isSome) :
    (build_request_digest md5hex realm user method d).isSome := by
  obtain ⟨uri, hu2⟩ := Option.isSome_iff_exists.mp hu
  obtain ⟨nonce, hn2⟩ := Option.isSome_iff_exists.mp hn
  obtain ⟨nc, hnc2⟩ := Option.isSome_iff_exists.mp hnc
  obtain ⟨cnonce, hcn2⟩ := Option.isSome_iff_exists.mp hcn
  by_cases hq : dlookup ("qop".toList) d = some ("auth".toList)
  · simp only [build_request_digest, hu2, hn2, hnc2, hcn2, hq, Option.some_bind,
      eq_self_iff_true, if_true]
    simp
  · simp only [build_request_digest, hu2, hn2, Option.some_bind, if_neg hq]
    simp

theorem make_response_info_isSome (md5hex : List Char → List Char)
    (realm : List Char) (user : DAVUser) (method : List Char)
    (d : PyDict (List Char) (List Char))
    (hu : (dlookup ("uri".toList) d).isSome)
    (hn : (dlookup ("nonce".toList) d).isSome)
    (hnc : (dlookup ("nc".toList) d).isSome)
    (hcn : (dlookup ("cnonce".toList) d).isSome)
    (hq : (dlookup ("qop".toList) d).isSome) :
    (make_response_authentication_info_string md5hex realm user method d).isSome := by
  obtain ⟨uri, hu2⟩ := Option.isSome_iff_exists.mp hu
  obtain ⟨nonce, hn2⟩ := Option.isSome_iff_exists.mp hn
  obtain ⟨nc, hnc2⟩ := Option.isSome_iff_exists.mp hnc
  obtain ⟨cnonce, hcn2⟩ := Option.isSome_iff_exists.mp hcn
  obtain ⟨qop, hq2⟩ := Option.isSome_iff_exists.mp hq
  simp only [make_response_authentication_info_string, hu2, hn2, hnc2, hcn2, hq2,
    Option.some_bind]
  simp

theorem register_map_of_nodup_usernames (accts : List DAVUser)
    (hnd : (accts.map DAVUser.username).Nodup) :
    (dav_auth_init emptyAuthState accts).credential_user_mapping =
      dinsertAll basic_credential (fun u => u) accts [] := by
  have hum : dinsertAll DAVUser.username (fun u => u) accts
      ([] : PyDict (List Char) DAVUser) = accts.map (fun a => (a.username, a)) := by
    simpa using dinsertAll_eq_append DAVUser.username (fun u => u) accts []
      hnd (fun x _ => rfl)
  show http_basic_auth_register []
      (dinsertAll DAVUser.username (fun u => u) accts []) = _
  rw [http_basic_auth_register, hum, List.map_map]
  simp [Function.comp_def]

theorem startCount_compression_send_loop_false {σ : Type}
    (writeC : σ → List Nat → σ × List Nat) (closeC : σ → List Nat) (status : Nat)
    (chunks : List (List Nat × Bool)) :
    ∀ (headers : PyDict (List Nat) (List Nat)) (st : σ),
      startCount (compression_send_loop writeC closeC status headers false st chunks) = 0 := by
  induction chunks with
  | nil => intro headers st; rfl
  | cons p rest ih =>
    intro headers st
    obtain ⟨chunk, more⟩ := p
    simp only [compression_send_loop, Bool.false_eq_true, if_false, startCount]
    exact ih _ _

/-! ## Split, strip and join lemmas (round-trip support) -/

theorem splitOnChar_ne_nil (c : Char) (s : List Char) : splitOnChar c s ≠ [] := by
  cases s with
  | nil => simp [splitOnChar]
  | cons x xs =>
    simp only [splitOnChar]
    rcases splitOnChar c xs with _ | ⟨y, ys⟩
    · simp
    · by_cases h : x = c <;> simp [h]

theorem splitOnChar_of_not_mem (c : Char) (s : List Char) (h : c ∉ s) :
    splitOnChar c s = [s] := by
  induction s with
  | nil => rfl
  | cons x xs ih =>
    rw [List.mem_cons, not_or] at h
    have hxc : x ≠ c := fun he => h.1 he.symm
    simp only [splitOnChar, ih h.2, if_neg hxc]

theorem splitOnChar_cons_ne (c x : Char) (s y : List Char) (ys : List (List Char))
    (hx : x ≠ c) (hs : splitOnChar c s = y :: ys) :
    splitOnChar c (x :: s) = (x :: y) :: ys := by
  simp only [splitOnChar, hs, if_neg hx]

theorem splitOnChar_append (c : Char) (a b : List Char) (h : c ∉ a) :
    splitOnChar c (a ++ c :: b) = a :: splitOnChar c b := by
  induction a with
  | nil =>
    simp only [List.nil_append]
    rcases hb : splitOnChar c b with _ | ⟨y, ys⟩
    · exact absurd hb (splitOnChar_ne_nil c b)
    · simp [splitOnChar, hb]
  | cons x a2 ih =>
    rw [List.mem_cons, not_or] at h
    rw [List.cons_append,
      splitOnChar_cons_ne c x _ a2 (splitOnChar c b) (fun he => h.1 he.symm) (ih h.2)]

theorem splitFirst_append (sep : Char) (k rest : List Char) (h : sep ∉ k) :
    splitFirst sep (k ++ sep :: rest) = some (k, rest) := by
  induction k with
  | nil => simp [splitFirst]
  | cons x k2 ih =>
    rw [List.mem_cons, not_or] at h
    have hxs : x ≠ sep := fun he => h.1 he.symm
    simp [List.cons_append, splitFirst, if_neg hxs, ih h.2]

theorem length_lstripCs_le (cs s : List Char) : (lstripCs cs s).length ≤ s.length :=
  (List.dropWhile_suffix _).length_le

theorem length_rstripCs_le (cs s : List Char) : (rstripCs cs s).length ≤ s.length := by
  unfold rstripCs
  rw [List.length_reverse]
  calc (lstripCs cs s.reverse).length ≤ s.reverse.length := length_lstripCs_le _ _
    _ = s.length := List.length_reverse _

theorem lstripCs_eq_of_strip_eq (cs s : List Char) (h : stripCs cs s = s) :
    lstripCs cs s = s := by
  have h1 := length_lstripCs_le cs s
  have h2 := length_rstripCs_le cs (lstripCs cs s)
  rw [show rstripCs cs (lstripCs cs s) = stripCs cs s from rfl, h] at h2
  exact (List.dropWhile_suffix _).eq_of_length (le_antisymm h1 h2)

theorem rstripCs_eq_of_strip_eq (cs s : List Char) (h : stripCs cs s = s) :
    rstripCs cs s = s := by
  have hl := lstripCs_eq_of_strip_eq cs s h
  unfold stripCs at h
  rw [hl] at h
  exact h

theorem lstripCs_cons (cs : List Char) (c : Char) (t : List Char) :
    lstripCs cs (c :: t) = if cs.contains c then lstripCs cs t else c :: t := by
  simp [lstripCs, List.dropWhile_cons]

theorem head_not_contains_of_lstrip_fix (cs : List Char) (c : Char) (t : List Char)
    (h : lstripCs cs (c :: t) = c :: t) : cs.contains c = false := by
  rcases hc : cs.contains c with _ | _
  · rfl
  · rw [lstripCs_cons, hc, if_pos rfl] at h
    have h2 := length_lstripCs_le cs t
    rw [h] at h2
    simp at h2

theorem lstripCs_eq_self_of_take (cs l : List Char)
    (h : ∀ c ∈ l.take 1, cs.contains c = false) : lstripCs cs l = l := by
  cases l with
  | nil => rfl
  | cons c t =>
    rw [lstripCs_cons, h c (by simp)]
    simp

theorem contains_eq_false_iff (l : List Char) (a : Char) :
    l.contains a = false ↔ a ∉ l := by
  rw [show l.contains a = List.elem a l from rfl, List.elem_eq_mem]
  simp

theorem rstrip_fix_reverse (cs v : List Char) (h : rstripCs cs v = v) :
    lstripCs cs v.reverse = v.reverse := by
  have h2 := congrArg List.reverse h
  unfold rstripCs at h2
  rw [List.reverse_reverse] at h2
  rw [h2]

theorem stripValue_quoted (v : List Char)
    (hq : Char.ofNat 34 ∉ v) (hsq : Char.ofNat 39 ∉ v)
    (hs : stripCs [' '] v = v) :
    stripValue (Char.ofNat 34 :: (v ++ [Char.ofNat 34])) = v := by
  have hl := lstripCs_eq_of_strip_eq _ _ hs
  have hr := rstripCs_eq_of_strip_eq _ _ hs
  have h1 : stripCs [' ', Char.ofNat 34] (Char.ofNat 34 :: (v ++ [Char.ofNat 34])) = v := by
    cases v with
    | nil => decide
    | cons vh vt =>
      have hvh : ([' ', Char.ofNat 34].contains vh) = false := by
        have h5 := head_not_contains_of_lstrip_fix [' '] vh vt hl
        rw [contains_eq_false_iff] at h5 ⊢
        intro hmem
        simp only [List.mem_cons, List.not_mem_nil, or_false] at hmem
        rcases hmem with he | he
        · exact h5 (by simp [he])
        · exact hq (by rw [← he]; exact List.mem_cons_self _ _)
      rcases hrev : (vh :: vt).reverse with _ | ⟨rh, rt⟩
      · exact absurd hrev (by simp)
      have hrh : ([' ', Char.ofNat 34].contains rh) = false := by
        have h6 := rstrip_fix_reverse [' '] (vh :: vt) hr
        rw [hrev] at h6
        have h7 := head_not_contains_of_lstrip_fix [' '] rh rt h6
        have hrm : rh ∈ vh :: vt := by
          rw [← List.mem_reverse, hrev]
          simp
        rw [contains_eq_false_iff] at h7 ⊢
        intro hmem
        simp only [List.mem_cons, List.not_mem_nil, or_false] at hmem
        rcases hmem with he | he
        · exact h7 (by simp [he])
        · exact hq (by rw [← he]; exact hrm)
      show rstripCs [' ', Char.ofNat 34]
        (lstripCs [' ', Char.ofNat 34] (Char.ofNat 34 :: (vh :: vt ++ [Char.ofNat 34]))) = _
      rw [lstripCs_cons, if_pos (by decide), List.cons_append, lstripCs_cons, hvh]
      simp only [Bool.false_eq_true, if_false]
      unfold rstripCs
      rw [show ((vh :: (vt ++ [Char.ofNat 34])).reverse) =
          Char.ofNat 34 :: (vh :: vt).reverse from by simp]
      rw [lstripCs_cons, if_pos (by decide), hrev, lstripCs_cons, hrh]
      simp only [Bool.false_eq_true, if_false]
      rw [← hrev, List.reverse_reverse]
  unfold stripValue
  rw [h1]
  have h2 : lstripCs [Char.ofNat 39] v = v := by
    apply lstripCs_eq_self_of_take
    intro c hc
    have hcv : c ∈ v := List.mem_of_mem_take hc
    rw [contains_eq_false_iff]
    intro hmem
    simp only [List.mem_cons, List.not_mem_nil, or_false] at hmem
    exact hsq (by rw [← hmem]; exact hcv)
  have h3 : lstripCs [Char.ofNat 39] v.reverse = v.reverse := by
    apply lstripCs_eq_self_of_take
    intro c hc
    have hcv : c ∈ v := List.mem_reverse.mp (List.mem_of_mem_take hc)
    rw [contains_eq_false_iff]
    intro hmem
    simp only [List.mem_cons, List.not_mem_nil, or_false] at hmem
    exact hsq (by rw [← hmem]; exact hcv)
  show rstripCs [Char.ofNat 39] (lstripCs [Char.ofNat 39] v) = v
  rw [h2]
  unfold rstripCs
  rw [h3, List.reverse_reverse]

theorem parseFragment_built (k v : List Char)
    (hk_eq : '=' ∉ k) (hk_strip : stripCs [' '] k = k)
    (hv_q : Char.ofNat 34 ∉ v) (hv_sq : Char.ofNat 39 ∉ v)
    (hv_strip : stripCs [' '] v = v) :
    parseFragment (k ++ ("=".toList) ++ [Char.ofNat 34] ++ v ++ [Char.ofNat 34]) =
      some (k, v) := by
  have hshape : k ++ ("=".toList) ++ [Char.ofNat 34] ++ v ++ [Char.ofNat 34] =
      k ++ '=' :: (Char.ofNat 34 :: (v ++ [Char.ofNat 34])) := by
    simp
  rw [hshape]
  simp only [parseFragment, splitFirst_append '=' k _ hk_eq]
  rw [hk_strip, stripValue_quoted v hv_q hv_sq hv_strip]

theorem parseFragment_built_marked (k v : List Char)
    (hk_eq : '=' ∉ k) (hk_strip : stripCs [' '] k = k)
    (hv_q : Char.ofNat 34 ∉ v) (hv_sq : Char.ofNat 39 ∉ v)
    (hv_strip : stripCs [' '] v = v) :
    parseFragment
      (' ' :: (k ++ ("=".toList) ++ [Char.ofNat 34] ++ v ++ [Char.ofNat 34])) =
      some (k, v) := by
  have hshape : ' ' :: (k ++ ("=".toList) ++ [Char.ofNat 34] ++ v ++ [Char.ofNat 34]) =
      (' ' :: k) ++ '=' :: (Char.ofNat 34 :: (v ++ [Char.ofNat 34])) := by
    simp
  have hks : '=' ∉ (' ' :: k) := by
    rw [List.mem_cons, not_or]
    exact ⟨by decide, hk_eq⟩
  rw [hshape]
  simp only [parseFragment, splitFirst_append '=' (' ' :: k) _ hks]
  have hkstrip2 : stripCs [' '] (' ' :: k) = k := by
    show rstripCs [' '] (lstripCs [' '] (' ' :: k)) = k
    rw [lstripCs_cons, if_pos (by decide)]
    exact hk_strip
  rw [hkstrip2, stripValue_quoted v hv_q hv_sq hv_strip]

theorem comma_not_mem_built (k v : List Char) (hk : ',' ∉ k) (hv : ',' ∉ v) :
    ',' ∉ (k ++ ("=".toList) ++ [Char.ofNat 34] ++ v ++ [Char.ofNat 34]) := by
  intro hmem
  simp only [List.mem_append, List.mem_cons, List.mem_singleton,
    List.not_mem_nil] at hmem
  rcases hmem with ((((hc | hc) | hc) | hc) | hc)
  · exact hk hc
  · revert hc
    decide
  · revert hc
    decide
  · exact hv hc
  · revert hc
    decide

theorem splitOnChar_joinSep (f : List Char) (fs : List (List Char))
    (hf : ',' ∉ f) (hfs : ∀ g ∈ fs, ',' ∉ g) :
    splitOnChar ',' (joinSep (", ".toList) (f :: fs)) =
      f :: fs.map (fun g => ' ' :: g) := by
  induction fs generalizing f with
  | nil => simp [joinSep, splitOnChar_of_not_mem ',' f hf]
  | cons g fs2 ih =>
    have hjoin : joinSep (", ".toList) (f :: g :: fs2) =
        f ++ ',' :: (' ' :: joinSep (", ".toList) (g :: fs2)) := by
      show f ++ (", ".toList) ++ joinSep (", ".toList) (g :: fs2) = _
      simp
    rw [hjoin, splitOnChar_append ',' f _ hf]
    have ih2 := ih g (hfs g (by simp)) (fun g2 hg2 => hfs g2 (by simp [hg2]))
    rw [splitOnChar_cons_ne ',' ' ' _ _ _ (by decide) ih2]
    simp

theorem parse_foldl_marked (l : List (List Char × List Char))
    (acc : PyDict (List Char) (List Char))
    (hgood : ∀ kv ∈ l, roundtrip_safe kv) :
    List.foldl parse_step acc
      (l.map (fun kv =>
        ' ' :: (kv.1 ++ ("=".toList) ++ [Char.ofNat 34] ++ kv.2 ++ [Char.ofNat 34]))) =
      dinsertAll Prod.fst Prod.snd l acc := by
  induction l generalizing acc with
  | nil => rfl
  | cons kv l2 ih =>
    obtain ⟨h1, h2, h3, h4, h5, h6, h7⟩ := hgood kv (by simp)
    have hstep : parseFragment
        (' ' :: (kv.1 ++ ("=".toList) ++ [Char.ofNat 34] ++ kv.2 ++ [Char.ofNat 34])) =
        some (kv.1, kv.2) := parseFragment_built_marked _ _ h2 h3 h5 h6 h7
    rw [List.map_cons, List.foldl_cons,
      show parse_step acc
          (' ' :: (kv.1 ++ ("=".toList) ++ [Char.ofNat 34] ++ kv.2 ++ [Char.ofNat 34])) =
        dinsert kv.1 kv.2 acc from by simp only [parse_step, hstep],
      ih _ (fun kv2 hk => hgood kv2 (by simp [hk]))]
    rfl

/-! ## Claim theorems -/

/-- C1: for a request carrying a Digest Authorization header, a required
field missing from the parsed field map forces the outcome
`(none, "no permission")` (even if the other nine fields are correct), a
recomputed digest differing from the submitted `response` field (exact
string inequality) forces `(none, "no permission")`, and any successful
outcome implies all ten required fields were present and the recomputed
request digest equals the submitted `response` field exactly. -/
theorem digest_requires_fields_and_exact_match (md5hex : List Char → List Char)
    (st : DAVAuthState) (headers : PyDict (List Nat) (List Nat))
    (method : List Char) (h : List Nat) (s : List Char)
    (hh : dlookup (encodeUtf8 ("authorization".toList)) headers = some h)
    (hd : digest_is_credential h = true)
    (hdec : decodeUtf8 (h.drop 7) = some s) :
    (∀ p ∈ required_digest_params,
      dlookup p (authorization_str_parser_to_data s) = none →
      pick_out_user md5hex st headers method =
        some (none, "no permission".toList)) ∧
    (∀ (user : DAVUser) (expected : List Char),
      (dlookup ("username".toList) (authorization_str_parser_to_data s)).bind
        (fun u => dlookup u st.user_mapping) = some user →
      build_request_digest md5hex st.realm user method
        (authorization_str_parser_to_data s) = some expected →
      dlookup ("response".toList) (authorization_str_parser_to_data s) ≠
        some expected →
      pick_out_user md5hex st headers method =
        some (none, "no permission".toList)) ∧
    (∀ (u : DAVUser) (r : List Char),
      pick_out_user md5hex st headers method = some (some u, r) →
      (∀ p ∈ required_digest_params,
        (dlookup p (authorization_str_parser_to_data s)).isSome) ∧
      ∃ expected,
        build_request_digest md5hex st.realm u method
          (authorization_str_parser_to_data s) = some expected ∧
        dlookup ("response".toList) (authorization_str_parser_to_data s) =
          some expected) := by
  have hb : basic_is_credential h = false := basic_is_credential_false_of_digest h hd
  simp only [pick_out_user, hh, hb, hd, hdec, Bool.false_eq_true, if_false,
    eq_self_iff_true, if_true]
  refine ⟨?_, ?_, ?_⟩
  · intro p hp hpnone
    have hall : required_digest_params.all
        (fun p => (dlookup p (authorization_str_parser_to_data s)).isSome) = false := by
      rcases hba : required_digest_params.all
          (fun p => (dlookup p (authorization_str_parser_to_data s)).isSome) with _ | _
      · rfl
      · have := List.all_eq_true.mp hba p hp
        rw [hpnone] at this
        simp at this
    rw [hall]
    rfl
  · intro user expected huser hbuild hne
    rcases hall : required_digest_params.all
        (fun p => (dlookup p (authorization_str_parser_to_data s)).isSome) with _ | _
    · rfl
    · simp only [Bool.not_true, Bool.false_eq_true, if_false, huser, hbuild]
      rw [if_pos]
      simpa using hne
  · intro u r hres
    rcases hall : required_digest_params.all
        (fun p => (dlookup p (authorization_str_parser_to_data s)).isSome) with _ | _
    · rw [hall] at hres
      simp at hres
    · rw [hall] at hres
      simp only [Bool.not_true, Bool.false_eq_true, if_false] at hres
      refine ⟨fun p hp => List.all_eq_true.mp hall p hp, ?_⟩
      rcases huser : (dlookup ("username".toList)
          (authorization_str_parser_to_data s)).bind
          (fun v => dlookup v st.user_mapping) with _ | user
      · simp only [huser] at hres
        simp at hres
      · simp only [huser] at hres
        rcases hbld : build_request_digest md5hex st.realm user method
            (authorization_str_parser_to_data s) with _ | expected
        · simp only [hbld] at hres
          simp at hres
        · simp only [hbld] at hres
          by_cases hcmp : dlookup ("response".toList)
              (authorization_str_parser_to_data s) = some expected
          · rw [if_neg (by simp only [hcmp]; simp)] at hres
            rcases hinfo : make_response_authentication_info_string md5hex
                st.realm user method (authorization_str_parser_to_data s) with _ | info
            · simp only [hinfo] at hres
              simp at hres
            · simp only [hinfo] at hres
              simp only [Option.some_inj, Prod.mk.injEq] at hres
              obtain ⟨hu2, _⟩ := hres
              exact ⟨expected, by rw [← hu2]; exact hbld, hcmp⟩
          · rw [if_pos (by simp only [hcmp]; simp)] at hres
            simp at hres

/-- Witness for C1: `digest_requires_fields_and_exact_match` applied to a
request missing the `cnonce` field (remaining nine correct), and to a
request with all ten fields whose submitted response differs from the
recomputed digest. -/
theorem digest_requires_fields_and_exact_match_witness :
    (pick_out_user (fun _ => ("X".toList))
        (dav_auth_init emptyAuthState [⟨"u".toList, "p".toList, [], false⟩])
        [(encodeUtf8 ("authorization".toList),
          encodeUtf8 (("Digest username=\"u\", realm=\"r\", nonce=\"n\", uri=\"/\", response=\"X\", algorithm=\"MD5\", opaque=\"o\", qop=\"auth\", nc=\"00000001\"").toList))]
        ("GET".toList) = some (none, "no permission".toList)) ∧
    (pick_out_user (fun _ => ("X".toList))
        (dav_auth_init emptyAuthState [⟨"u".toList, "p".toList, [], false⟩])
        [(encodeUtf8 ("authorization".toList),
          encodeUtf8 (("Digest username=\"u\", realm=\"r\", nonce=\"n\", uri=\"/\", response=\"zz\", algorithm=\"MD5\", opaque=\"o\", qop=\"auth\", nc=\"00000001\", cnonce=\"c\"").toList))]
        ("GET".toList) = some (none, "no permission".toList)) := by
  constructor
  · exact (digest_requires_fields_and_exact_match (fun _ => ("X".toList))
      (dav_auth_init emptyAuthState [⟨"u".toList, "p".toList, [], false⟩])
      [(encodeUtf8 ("authorization".toList),
        encodeUtf8 (("Digest username=\"u\", realm=\"r\", nonce=\"n\", uri=\"/\", response=\"X\", algorithm=\"MD5\", opaque=\"o\", qop=\"auth\", nc=\"00000001\"").toList))]
      ("GET".toList)
      (encodeUtf8 (("Digest username=\"u\", realm=\"r\", nonce=\"n\", uri=\"/\", response=\"X\", algorithm=\"MD5\", opaque=\"o\", qop=\"auth\", nc=\"00000001\"").toList))
      (("username=\"u\", realm=\"r\", nonce=\"n\", uri=\"/\", response=\"X\", algorithm=\"MD5\", opaque=\"o\", qop=\"auth\", nc=\"00000001\"").toList)
      (by decide) (by decide) (by decide)).1
      ("cnonce".toList) (by decide) (by decide)
  · exact (digest_requires_fields_and_exact_match (fun _ => ("X".toList))
      (dav_auth_init emptyAuthState [⟨"u".toList, "p".toList, [], false⟩])
      [(encodeUtf8 ("authorization".toList),
        encodeUtf8 (("Digest username=\"u\", realm=\"r\", nonce=\"n\", uri=\"/\", response=\"zz\", algorithm=\"MD5\", opaque=\"o\", qop=\"auth\", nc=\"00000001\", cnonce=\"c\"").toList))]
      ("GET".toList)
      (encodeUtf8 (("Digest username=\"u\", realm=\"r\", nonce=\"n\", uri=\"/\", response=\"zz\", algorithm=\"MD5\", opaque=\"o\", qop=\"auth\", nc=\"00000001\", cnonce=\"c\"").toList))
      (("username=\"u\", realm=\"r\", nonce=\"n\", uri=\"/\", response=\"zz\", algorithm=\"MD5\", opaque=\"o\", qop=\"auth\", nc=\"00000001\", cnonce=\"c\"").toList)
      (by decide) (by decide) (by decide)).2.1
      ⟨"u".toList, "p".toList, [], false⟩ ("X".toList)
      (by decide) (by decide) (by decide)

/-- C5 (counterexample): `pick_out_user` is not exception-free on every
headers mapping: a Digest header whose bytes after the scheme tag are not
valid UTF-8 makes `authorization_header[7:].decode("utf-8")` raise
`UnicodeDecodeError` (modelled as the `none` result), so no (user, reason)
pair is returned for the concrete header `b"Digest \xff"`. -/
theorem pick_out_user_raises_counterexample :
    pick_out_user (fun s => s) emptyAuthState
      [(encodeUtf8 ("authorization".toList),
        encodeUtf8 ("Digest ".toList) ++ [255])] ("GET".toList) = none := by
  decide

/-- C5 (amended): for every request whose Digest Authorization payload (when
the header is present and carries the Digest scheme) is valid UTF-8 - in
particular for an absent Authorization header or an unknown scheme -
`pick_out_user` never raises: it returns a pair of an optional user and a
reason string, with absence accompanied by a non-empty reason on every
failure path.  (On a Digest header with non-UTF-8 payload bytes it raises
`UnicodeDecodeError` instead.) -/
theorem pick_out_user_total_corrected (md5hex : List Char → List Char)
    (st : DAVAuthState) (headers : PyDict (List Nat) (List Nat))
    (method : List Char)
    (hdec : ∀ h2 : List Nat,
      dlookup (encodeUtf8 ("authorization".toList)) headers = some h2 →
      digest_is_credential h2 = true → (decodeUtf8 (h2.drop 7)).isSome) :
    ∃ res : Option DAVUser × List Char,
      pick_out_user md5hex st headers method = some res ∧
      (res.1 = none → res.2 ≠ []) := by
  rcases hh : dlookup (encodeUtf8 ("authorization".toList)) headers with _ | h
  · refine ⟨(none, "miss header: authorization".toList), ?_, fun _ => by decide⟩
    simp only [pick_out_user, hh]
  · by_cases hbc : basic_is_credential h = true
    · rcases hv : basic_verify_user st.credential_user_mapping h with _ | u
      · refine ⟨(none, "no permission".toList), ?_, fun _ => by decide⟩
        simp only [pick_out_user, hh, hbc, if_true, hv]
      · refine ⟨(some u, []), ?_, fun hcontra => by simp at hcontra⟩
        simp only [pick_out_user, hh, hbc, if_true, hv]
    · have hbc2 : basic_is_credential h = false := by
        rcases hb3 : basic_is_credential h with _ | _
        · rfl
        · exact absurd hb3 hbc
      by_cases hdc : digest_is_credential h = true
      · obtain ⟨s, hs⟩ := Option.isSome_iff_exists.mp (hdec h hh hdc)
        rcases hall : required_digest_params.all
            (fun p => (dlookup p (authorization_str_parser_to_data s)).isSome)
            with _ | _
        · refine ⟨(none, "no permission".toList), ?_, fun _ => by decide⟩
          simp only [pick_out_user, hh, hbc2, Bool.false_eq_true, if_false, hdc,
            eq_self_iff_true, if_true, hs, hall]
          rfl
        · have hforall := List.all_eq_true.mp hall
          have hu := hforall ("uri".toList) (by decide)
          have hn := hforall ("nonce".toList) (by decide)
          have hnc := hforall ("nc".toList) (by decide)
          have hcn := hforall ("cnonce".toList) (by decide)
          have hq := hforall ("qop".toList) (by decide)
          rcases huser : (dlookup ("username".toList)
              (authorization_str_parser_to_data s)).bind
              (fun v => dlookup v st.user_mapping) with _ | user
          · refine ⟨(none, "no permission".toList), ?_, fun _ => by decide⟩
            simp only [pick_out_user, hh, hbc2, Bool.false_eq_true, if_false, hdc,
              eq_self_iff_true, if_true, hs, hall, Bool.not_true, huser]
          · obtain ⟨expected, hbld⟩ := Option.isSome_iff_exists.mp
              (build_request_digest_isSome md5hex st.realm user method _ hu hn hnc hcn)
            by_cases hcmp : dlookup ("response".toList)
                (authorization_str_parser_to_data s) = some expected
            · obtain ⟨info, hinfo⟩ := Option.isSome_iff_exists.mp
                (make_response_info_isSome md5hex st.realm user method _ hu hn hnc hcn hq)
              refine ⟨(some user, []), ?_, fun hcontra => by simp at hcontra⟩
              simp only [pick_out_user, hh, hbc2, Bool.false_eq_true, if_false, hdc,
                eq_self_iff_true, if_true, hs, hall, Bool.not_true, huser, hbld, hinfo]
              rw [if_neg (by simp only [hcmp]; simp)]
            · refine ⟨(none, "no permission".toList), ?_, fun _ => by decide⟩
              simp only [pick_out_user, hh, hbc2, Bool.false_eq_true, if_false, hdc,
                eq_self_iff_true, if_true, hs, hall, Bool.not_true, huser, hbld]
              rw [if_pos (by simp only [hcmp]; simp)]
      · have hdc2 : digest_is_credential h = false := by
          rcases hd3 : digest_is_credential h with _ | _
          · rfl
          · exact absurd hd3 hdc
        refine ⟨(none, "Unknown authentication method".toList), ?_, fun _ => by decide⟩
        simp only [pick_out_user, hh, hbc2, hdc2, Bool.false_eq_true, if_false]

/-- Witness for C5: `pick_out_user_total_corrected` applied to a concrete
request whose Digest payload is valid UTF-8 (but incomplete). -/
theorem pick_out_user_total_corrected_witness :
    ∃ res : Option DAVUser × List Char,
      pick_out_user (fun s => s) emptyAuthState
        [(encodeUtf8 ("authorization".toList),
          encodeUtf8 ("Digest qop=\"auth\"".toList))] ("GET".toList) = some res ∧
      (res.1 = none → res.2 ≠ []) :=
  pick_out_user_total_corrected (fun s => s) emptyAuthState
    [(encodeUtf8 ("authorization".toList),
      encodeUtf8 ("Digest qop=\"auth\"".toList))] ("GET".toList)
    (by decide)

/-- C2: for every user, request method, uri and parsed digest field map,
`build_request_digest` returns `MD5(HA1:nonce:nc:cnonce:qop:HA2)` when the
`qop` field equals `"auth"`, and `MD5(HA1:nonce:HA2)` for any other or
absent `qop` value, where `HA1 = MD5(username:realm:password)` and
`HA2 = MD5(method:uri)`, components joined by `":"` before hashing. -/
theorem build_request_digest_formula (md5hex : List Char → List Char)
    (realm : List Char) (user : DAVUser) (method uri nonce : List Char)
    (d : PyDict (List Char) (List Char))
    (hu : dlookup ("uri".toList) d = some uri)
    (hn : dlookup ("nonce".toList) d = some nonce) :
    (∀ nc cnonce,
      dlookup ("qop".toList) d = some ("auth".toList) →
      dlookup ("nc".toList) d = some nc →
      dlookup ("cnonce".toList) d = some cnonce →
      build_request_digest md5hex realm user method d =
        some (md5hex
          (md5hex (user.username ++ (":".toList) ++ realm ++ (":".toList) ++ user.password)
            ++ (":".toList) ++ nonce ++ (":".toList) ++ nc ++ (":".toList) ++ cnonce
            ++ (":".toList) ++ ("auth".toList) ++ (":".toList)
            ++ md5hex (method ++ (":".toList) ++ uri)))) ∧
    (dlookup ("qop".toList) d ≠ some ("auth".toList) →
      build_request_digest md5hex realm user method d =
        some (md5hex
          (md5hex (user.username ++ (":".toList) ++ realm ++ (":".toList) ++ user.password)
            ++ (":".toList) ++ nonce ++ (":".toList)
            ++ md5hex (method ++ (":".toList) ++ uri)))) := by
  constructor
  · intro nc cnonce hq hnc hcn
    simp only [build_request_digest, hu, hn, hq, hnc, hcn, Option.some_bind]
    simp [build_ha1_ha2_digest, build_md5_digest, joinSep]
  · intro hq
    simp only [build_request_digest, hu, hn, Option.some_bind, if_neg hq]
    simp [build_ha1_ha2_digest, build_md5_digest, joinSep]

/-- Witness for C2: both branches of `build_request_digest_formula` applied
at concrete inputs, with the hash abstracted as the identity function. -/
theorem build_request_digest_formula_witness :
    (build_request_digest (fun s => s) ("r".toList)
        ⟨"u".toList, "p".toList, [], false⟩ ("GET".toList)
        [(("uri".toList), ("/a".toList)), (("nonce".toList), ("N1".toList)),
         (("qop".toList), ("auth".toList)), (("nc".toList), ("00000001".toList)),
         (("cnonce".toList), ("C1".toList))] =
      some ("u:r:p:N1:00000001:C1:auth:GET:/a".toList)) ∧
    (build_request_digest (fun s => s) ("r".toList)
        ⟨"u".toList, "p".toList, [], false⟩ ("GET".toList)
        [(("uri".toList), ("/a".toList)), (("nonce".toList), ("N1".toList))] =
      some ("u:r:p:N1:GET:/a".toList)) := by
  constructor
  · exact (build_request_digest_formula (fun s => s) ("r".toList)
      ⟨"u".toList, "p".toList, [], false⟩ ("GET".toList) ("/a".toList) ("N1".toList)
      _ (by decide) (by decide)).1 ("00000001".toList) ("C1".toList)
      (by decide) (by decide) (by decide)
  · exact (build_request_digest_formula (fun s => s) ("r".toList)
      ⟨"u".toList, "p".toList, [], false⟩ ("GET".toList) ("/a".toList) ("N1".toList)
      _ (by decide) (by decide)).2 (by decide)

/-- C3 (counterexample): the mutual authentication info string is NOT
serialized as `rspauth="…", cnonce="…", qop=…, nc=…` with unquoted `qop` and
`nc`: the code passes the dict `{"rspauth": …, "qop": …, "cnonce": …, "nc": …}`
through `authorization_string_build_from_data`, which double-quotes every
value and keeps that key order, so a concrete run yields
`rspauth="R", qop="auth", cnonce="C1", nc="00000001"` and not the claimed
`rspauth="R", cnonce="C1", qop=auth, nc=00000001`. -/
theorem make_response_authentication_info_counterexample :
    make_response_authentication_info_string (fun _ => ("R".toList)) ("r".toList)
        ⟨"u".toList, "p".toList, [], false⟩ ("GET".toList)
        [(("uri".toList), ("/a".toList)), (("nonce".toList), ("N1".toList)),
         (("qop".toList), ("auth".toList)), (("nc".toList), ("00000001".toList)),
         (("cnonce".toList), ("C1".toList))] =
      some (encodeUtf8
        ("rspauth=\"R\", qop=\"auth\", cnonce=\"C1\", nc=\"00000001\"".toList)) ∧
    make_response_authentication_info_string (fun _ => ("R".toList)) ("r".toList)
        ⟨"u".toList, "p".toList, [], false⟩ ("GET".toList)
        [(("uri".toList), ("/a".toList)), (("nonce".toList), ("N1".toList)),
         (("qop".toList), ("auth".toList)), (("nc".toList), ("00000001".toList)),
         (("cnonce".toList), ("C1".toList))] ≠
      some (encodeUtf8
        ("rspauth=\"R\", cnonce=\"C1\", qop=auth, nc=00000001".toList)) := by
  constructor
  · decide
  · decide

/-- C3 (amended): for every successfully Digest-authenticated request, the
mutual authentication info string has `rspauth` computed by the same
`MD5(HA1:nonce:nc:cnonce:qop:HA2)` formula as the auth-qop request digest
(HA2 not re-derived for the response direction), and is serialized as
`rspauth="…", qop="…", cnonce="…", nc="…"` - in that key order, every value
double-quoted (the `qop` and `nc` values included), comma-space separated. -/
theorem make_response_authentication_info_corrected
    (md5hex : List Char → List Char) (realm : List Char) (user : DAVUser)
    (method uri nonce nc cnonce qop : List Char)
    (d : PyDict (List Char) (List Char))
    (h1 : dlookup ("uri".toList) d = some uri)
    (h2 : dlookup ("nonce".toList) d = some nonce)
    (h3 : dlookup ("nc".toList) d = some nc)
    (h4 : dlookup ("cnonce".toList) d = some cnonce)
    (h5 : dlookup ("qop".toList) d = some qop) :
    make_response_authentication_info_string md5hex realm user method d =
      some (encodeUtf8 (
        ("rspauth=\"".toList) ++
        md5hex (md5hex (user.username ++ (":".toList) ++ realm ++ (":".toList) ++ user.password)
          ++ (":".toList) ++ nonce ++ (":".toList) ++ nc ++ (":".toList) ++ cnonce
          ++ (":".toList) ++ qop ++ (":".toList)
          ++ md5hex (method ++ (":".toList) ++ uri)) ++
        ("\", qop=\"".toList) ++ qop ++
        ("\", cnonce=\"".toList) ++ cnonce ++
        ("\", nc=\"".toList) ++ nc ++ ("\"".toList))) := by
  simp only [make_response_authentication_info_string, h1, h2, h3, h4, h5,
    Option.some_bind]
  simp [authorization_string_build_from_data, joinSep, build_ha1_ha2_digest,
    build_md5_digest]

/-- Witness for C3: `make_response_authentication_info_corrected` applied at
a concrete input, with the hash abstracted as the identity function. -/
theorem make_response_authentication_info_corrected_witness :
    make_response_authentication_info_string (fun s => s) ("r".toList)
        ⟨"u".toList, "p".toList, [], false⟩ ("GET".toList)
        [(("uri".toList), ("/a".toList)), (("nonce".toList), ("N1".toList)),
         (("qop".toList), ("auth".toList)), (("nc".toList), ("00000001".toList)),
         (("cnonce".toList), ("C1".toList))] =
      some (encodeUtf8
        ("rspauth=\"u:r:p:N1:00000001:C1:auth:GET:/a\", qop=\"auth\", cnonce=\"C1\", nc=\"00000001\"".toList)) := by
  rw [make_response_authentication_info_corrected (fun s => s) ("r".toList)
    ⟨"u".toList, "p".toList, [], false⟩ ("GET".toList) ("/a".toList) ("N1".toList)
    ("00000001".toList) ("C1".toList) ("auth".toList) _
    (by decide) (by decide) (by decide) (by decide) (by decide)]
  decide

/-- C7: for every response constructed with both a total content length `L`
and a range start `S`, the response carries the header
`Content-Range: bytes {S}-{L}/{L}` (the second number is the total length
`L`, not `L-1`) and the effective content length for the transfer becomes
`L - S`. -/
theorem dav_response_init_content_range (status : Nat)
    (hdrs : Option (PyDict (List Nat) (List Nat))) (rt : DAVResponseType)
    (content : DAVContent) (L S : Nat) :
    dlookup contentRangeKey
        (dav_response_init status hdrs rt content (some L) (some S)).headers =
      some (encodeUtf8 (("bytes ".toList) ++ natToStr S ++ ("-".toList) ++
        natToStr L ++ ("/".toList) ++ natToStr L)) ∧
    (dav_response_init status hdrs rt content (some L) (some S)).content_length =
      some ((L : Int) - (S : Int)) ∧
    (dav_response_init status hdrs rt content (some L) (some S)).content_range = true := by
  refine ⟨?_, rfl, rfl⟩
  simp [dav_response_init]

/-- C6: for every compressed streamed response, the header frame is sent
exactly once, as the first frame, before every body frame; when the first
source chunk is also the last (continuation flag false) the header carries
`Content-Length` equal to the length of the single compressed body, and
otherwise any pre-existing `Content-Length` header is removed so no length
is declared. -/
theorem compression_send_framing {σ : Type} (writeC : σ → List Nat → σ × List Nat)
    (closeC : σ → List Nat) (name : List Nat) (status : Nat)
    (headers : PyDict (List Nat) (List Nat)) (st : σ) :
    (∀ chunks : List (List Nat × Bool), chunks ≠ [] →
      startCount (compression_send writeC closeC name status headers st chunks) = 1 ∧
      ∃ hs2 rest2, compression_send writeC closeC name status headers st chunks =
        ASGIMsg.start status hs2 :: rest2 ∧ startCount rest2 = 0) ∧
    (∀ c : List Nat,
      compression_send writeC closeC name status headers st [(c, false)] =
        [ASGIMsg.start status (dinsert contentLengthKey
            (encodeUtf8 (natToStr ((writeC st c).2 ++ closeC (writeC st c).1).length))
            (dinsert contentEncodingKey name headers)),
         ASGIMsg.body ((writeC st c).2 ++ closeC (writeC st c).1) false] ∧
      dlookup contentLengthKey (dinsert contentLengthKey
          (encodeUtf8 (natToStr ((writeC st c).2 ++ closeC (writeC st c).1).length))
          (dinsert contentEncodingKey name headers)) =
        some (encodeUtf8 (natToStr ((writeC st c).2 ++ closeC (writeC st c).1).length))) ∧
    (∀ (c : List Nat) (rest : List (List Nat × Bool)),
      (headers.map Prod.fst).Nodup →
      compression_send writeC closeC name status headers st ((c, true) :: rest) =
        ASGIMsg.start status
            (dpop contentLengthKey (dinsert contentEncodingKey name headers)) ::
          ASGIMsg.body (writeC st c).2 true ::
          compression_send_loop writeC closeC status
            (dpop contentLengthKey (dinsert contentEncodingKey name headers))
            false (writeC st c).1 rest ∧
      dlookup contentLengthKey
        (dpop contentLengthKey (dinsert contentEncodingKey name headers)) = none) := by
  refine ⟨?_, ?_, ?_⟩
  · intro chunks hne
    cases chunks with
    | nil => exact absurd rfl hne
    | cons p rest =>
      obtain ⟨c, more⟩ := p
      constructor
      · simp [compression_send, compression_send_loop, startCount,
          startCount_compression_send_loop_false]
      · refine ⟨_, _, rfl, ?_⟩
        simp [startCount, startCount_compression_send_loop_false]
  · intro c
    exact ⟨rfl, dlookup_dinsert_self _ _ _⟩
  · intro c rest hnd
    refine ⟨rfl, ?_⟩
    exact dlookup_dpop_self _ _ (nodup_keys_dinsert _ _ _ hnd)

/-- Witness for C6: the three parts of `compression_send_framing` applied at
a concrete pass-through codec and concrete chunk lists. -/
theorem compression_send_framing_witness :
    (startCount (compression_send (fun (st : Nat) (b : List Nat) => (st, b))
        (fun _ => []) (encodeUtf8 ("gzip".toList)) 200
        [(contentLengthKey, encodeUtf8 ("5".toList))] 0
        [(([3, 4]), true), (([5]), false)]) = 1) ∧
    (compression_send (fun (st : Nat) (b : List Nat) => (st, b))
        (fun _ => []) (encodeUtf8 ("gzip".toList)) 200
        [(contentLengthKey, encodeUtf8 ("5".toList))] 0 [(([9, 9]), false)] =
      [ASGIMsg.start 200 (dinsert contentLengthKey
          (encodeUtf8 (natToStr 2))
          (dinsert contentEncodingKey (encodeUtf8 ("gzip".toList))
            [(contentLengthKey, encodeUtf8 ("5".toList))])),
       ASGIMsg.body [9, 9] false]) ∧
    (dlookup contentLengthKey
      (dpop contentLengthKey (dinsert contentEncodingKey
        (encodeUtf8 ("gzip".toList))
        [(contentLengthKey, encodeUtf8 ("5".toList))])) = none) := by
  refine ⟨?_, ?_, ?_⟩
  · exact ((compression_send_framing (fun (st : Nat) (b : List Nat) => (st, b))
      (fun _ => []) (encodeUtf8 ("gzip".toList)) 200
      [(contentLengthKey, encodeUtf8 ("5".toList))] 0).1
      [(([3, 4]), true), (([5]), false)] (by decide)).1
  · exact ((compression_send_framing (fun (st : Nat) (b : List Nat) => (st, b))
      (fun _ => []) (encodeUtf8 ("gzip".toList)) 200
      [(contentLengthKey, encodeUtf8 ("5".toList))] 0).2.1 ([9, 9])).1
  · exact ((compression_send_framing (fun (st : Nat) (b : List Nat) => (st, b))
      (fun _ => []) (encodeUtf8 ("gzip".toList)) 200
      [(contentLengthKey, encodeUtf8 ("5".toList))] 0).2.2 ([7]) []
      (by decide)).2

/-- C8 (counterexample): building then parsing does not reproduce every map
whose values merely avoid commas and quotes: a value with a leading or
trailing space is stripped by the parser (`{"k": " "}` comes back as
`{"k": ""}`), so the second build differs as well; a key containing a comma
or an equals sign also breaks the round trip. -/
theorem authorization_roundtrip_counterexample :
    (authorization_str_parser_to_data (authorization_string_build_from_data
        [(("k".toList), (" ".toList))]) ≠ [(("k".toList), (" ".toList))]) ∧
    (authorization_string_build_from_data (authorization_str_parser_to_data
        (authorization_string_build_from_data [(("k".toList), (" ".toList))])) ≠
      authorization_string_build_from_data [(("k".toList), (" ".toList))]) ∧
    (authorization_str_parser_to_data (authorization_string_build_from_data
        [(("a,b".toList), ("c".toList))]) ≠ [(("a,b".toList), ("c".toList))]) ∧
    (authorization_str_parser_to_data (authorization_string_build_from_data
        [(("a=b".toList), ("c".toList))]) ≠ [(("a=b".toList), ("c".toList))]) := by
  refine ⟨by decide, by decide, by decide, by decide⟩

/-- C8 (amended): for every finite string-to-string map (distinct keys)
whose keys contain no comma or equals sign and no leading/trailing spaces,
and whose values contain no comma, no double or single quote, and no
leading/trailing spaces, parsing the built authorization string yields the
map itself, and building from the re-parsed map reproduces the originally
built string. -/
theorem authorization_roundtrip_corrected
    (data : PyDict (List Char) (List Char))
    (hnd : (data.map Prod.fst).Nodup)
    (hgood : ∀ kv ∈ data, roundtrip_safe kv) :
    authorization_str_parser_to_data
      (authorization_string_build_from_data data) = data ∧
    authorization_string_build_from_data (authorization_str_parser_to_data
      (authorization_string_build_from_data data)) =
      authorization_string_build_from_data data := by
  have hmain : authorization_str_parser_to_data
      (authorization_string_build_from_data data) = data := by
    cases data with
    | nil => rfl
    | cons kv rest =>
      obtain ⟨h1, h2, h3, h4, h5, h6, h7⟩ := hgood kv (by simp)
      have hcfrag : ∀ kv2 ∈ kv :: rest, (',' : Char) ∉
          (kv2.1 ++ ("=".toList) ++ [Char.ofNat 34] ++ kv2.2 ++ [Char.ofNat 34]) := by
        intro kv2 hkv2
        obtain ⟨g1, _, _, g4, _, _, _⟩ := hgood kv2 hkv2
        exact comma_not_mem_built _ _ g1 g4
      rw [authorization_string_build_from_data, authorization_str_parser_to_data,
        List.map_cons,
        splitOnChar_joinSep _ _ (hcfrag kv (by simp))
          (by
            intro g hg
            rw [List.mem_map] at hg
            obtain ⟨kv2, hkv2, hge⟩ := hg
            rw [← hge]
            exact hcfrag kv2 (by simp [hkv2])),
        List.foldl_cons,
        show parse_step []
            (kv.1 ++ ("=".toList) ++ [Char.ofNat 34] ++ kv.2 ++ [Char.ofNat 34]) =
          dinsert kv.1 kv.2 [] from by
            simp only [parse_step, parseFragment_built _ _ h2 h3 h5 h6 h7],
        List.map_map,
        show rest.map ((fun g => ' ' :: g) ∘ (fun kv2 : List Char × List Char =>
            kv2.1 ++ ("=".toList) ++ [Char.ofNat 34] ++ kv2.2 ++ [Char.ofNat 34])) =
          rest.map (fun kv2 =>
            ' ' :: (kv2.1 ++ ("=".toList) ++ [Char.ofNat 34] ++ kv2.2 ++ [Char.ofNat 34]))
          from rfl,
        parse_foldl_marked rest _ (fun kv2 hk => hgood kv2 (by simp [hk])),
        ← dinsertAll_cons,
        dinsertAll_eq_append Prod.fst Prod.snd (kv :: rest) [] hnd
          (fun x _ => rfl)]
      simp
  exact ⟨hmain, by rw [hmain]⟩

/-- Witness for C8: `authorization_roundtrip_corrected` applied at a concrete
two-entry map. -/
theorem authorization_roundtrip_corrected_witness :
    authorization_str_parser_to_data (authorization_string_build_from_data
      [(("username".toList), ("alice".toList)), (("qop".toList), ("auth".toList))]) =
      [(("username".toList), ("alice".toList)), (("qop".toList), ("auth".toList))] ∧
    authorization_string_build_from_data (authorization_str_parser_to_data
      (authorization_string_build_from_data
        [(("username".toList), ("alice".toList)), (("qop".toList), ("auth".toList))])) =
      authorization_string_build_from_data
        [(("username".toList), ("alice".toList)), (("qop".toList), ("auth".toList))] :=
  authorization_roundtrip_corrected
    [(("username".toList), ("alice".toList)), (("qop".toList), ("auth".toList))]
    (by decide) (by decide)

/-- C9: the hide decision is false whenever the directory filter is
disabled; otherwise the decision applies `re.match` (prefix-anchored) of the
resolved rule to the file name; same-user-agent rules are merged by regex
alternation at construction and the fallback (empty user-agent) rule is
merged into every user-agent-specific rule, so with fallback rule `\..*` and
curl rule `^tmp` the constructed curl rule is `\..*|^tmp` and the file name
`tmp1` from a curl user-agent is hidden. -/
theorem hide_file_in_dir_claims :
    (∀ (defaults : PyDict (List Char) (List Char)) (cfg : HideFileInDirConfig)
        (ua fn : List Char), cfg.enable = false →
      is_match_hide_file_in_dir (hide_file_init defaults cfg) ua fn =
        some (false, hide_file_init defaults cfg)) ∧
    (∀ (m : DAVHideFileInDirModel) (ua fn rule : List Char),
      m.enable = true →
      dlookup ua m.ua_to_rule_mapping = none →
      get_rule_by_client_user_agent m ua = some (some rule) →
      is_match_hide_file_in_dir m ua fn =
        (re_match rule fn).map (fun b =>
          (b, { m with ua_to_rule_mapping := dinsert ua rule m.ua_to_rule_mapping }))) ∧
    (∀ a b : List Char, merge_rules (some a) b = a ++ ("|".toList) ++ b) ∧
    (hide_file_init []
        { enable := true, enable_default_rules := false,
          user_rules := [(([] : List Char), ("\\..*".toList)),
            (("curl".toList), ("^tmp".toList))] } =
      { enable := true,
        data_rules := [(("curl".toList), ("\\..*|^tmp".toList))],
        data_rules_basic := some ("\\..*".toList),
        ua_to_rule_mapping := [] }) ∧
    ((hide_file_init [(("curl".toList), ("a".toList))]
        { enable := true, enable_default_rules := true,
          user_rules := [(("curl".toList), ("b".toList))] }).data_rules =
      [(("curl".toList), ("a|b".toList))]) ∧
    ((is_match_hide_file_in_dir (hide_file_init []
        { enable := true, enable_default_rules := false,
          user_rules := [(([] : List Char), ("\\..*".toList)),
            (("curl".toList), ("^tmp".toList))] })
        ("curl/8.0".toList) ("tmp1".toList)).map Prod.fst = some true) := by
  refine ⟨?_, ?_, fun a b => rfl, by decide, by decide, by decide⟩
  · intro defaults cfg ua fn he
    simp [hide_file_init, is_match_hide_file_in_dir, he]
  · intro m ua fn rule he hc hr
    simp only [is_match_hide_file_in_dir, he, Bool.not_true, Bool.false_eq_true,
      if_false, hc, hr]

/-- Witness for C9: the quantified parts of `hide_file_in_dir_claims`
applied at concrete configurations. -/
theorem hide_file_in_dir_claims_witness :
    (is_match_hide_file_in_dir (hide_file_init []
        { enable := false, enable_default_rules := false, user_rules := [] })
        ("ua".toList) ("f".toList) =
      some (false, hide_file_init []
        { enable := false, enable_default_rules := false, user_rules := [] })) ∧
    (is_match_hide_file_in_dir
        ⟨true, [(("curl".toList), ("^tmp".toList))], none, []⟩
        ("curl/8.0".toList) ("tmp1".toList) =
      (re_match ("^tmp".toList) ("tmp1".toList)).map (fun b =>
        (b, ⟨true, [(("curl".toList), ("^tmp".toList))], none,
          [(("curl/8.0".toList), ("^tmp".toList))]⟩))) := by
  constructor
  · exact hide_file_in_dir_claims.1 []
      { enable := false, enable_default_rules := false, user_rules := [] }
      ("ua".toList) ("f".toList) rfl
  · exact hide_file_in_dir_claims.2.1
      ⟨true, [(("curl".toList), ("^tmp".toList))], none, []⟩
      ("curl/8.0".toList) ("tmp1".toList) ("^tmp".toList) rfl rfl (by decide)

/-- C10: the Basic credential map and the username map are class-level state
shared across constructions - `dav_auth_init` threads the shared maps, so
every entry visible after the first construction is still a key after the
second (entries accumulate, overwritten only on key collision, never
cleared), and the second instance's verification accepts every credential
loaded by either construction (given distinct usernames per construction). -/
theorem class_level_maps_accumulate (st0 : DAVAuthState)
    (accts1 accts2 : List DAVUser)
    (h1 : (accts1.map DAVUser.username).Nodup)
    (h2 : (accts2.map DAVUser.username).Nodup) :
    (∀ c : List Nat,
      (dlookup c (dav_auth_init st0 accts1).credential_user_mapping).isSome →
      (dlookup c (dav_auth_init (dav_auth_init st0 accts1) accts2).credential_user_mapping).isSome) ∧
    (∀ k : List Char,
      (dlookup k (dav_auth_init st0 accts1).user_mapping).isSome →
      (dlookup k (dav_auth_init (dav_auth_init st0 accts1) accts2).user_mapping).isSome) ∧
    (∀ a : DAVUser, a ∈ accts1 ++ accts2 →
      (basic_verify_user
        (dav_auth_init (dav_auth_init st0 accts1) accts2).credential_user_mapping
        (encodeUtf8 ("Basic ".toList) ++ basic_credential a)).isSome) := by
  have hmem : ∀ (st : DAVAuthState) (accts : List DAVUser) (a : DAVUser),
      (accts.map DAVUser.username).Nodup → a ∈ accts →
      (dlookup (basic_credential a) (dav_auth_init st accts).credential_user_mapping).isSome := by
    intro st accts a hnd ha
    have hum : dlookup a.username
        (dinsertAll DAVUser.username (fun u => u) accts st.user_mapping) = some a :=
      dlookup_dinsertAll_of_nodup DAVUser.username (fun u => u) a accts
        st.user_mapping hnd ha
    have hpair := mem_of_dlookup_eq_some _ _ _ hum
    have hval : a ∈ (dinsertAll DAVUser.username (fun u => u) accts
        st.user_mapping).map Prod.snd := List.mem_map_of_mem Prod.snd hpair
    exact isSome_dlookup_dinsertAll_of_mem basic_credential (fun u => u) a _ _ hval
  refine ⟨?_, ?_, ?_⟩
  · intro c hc
    exact isSome_dlookup_dinsertAll _ _ _ _ _ hc
  · intro k hk
    exact isSome_dlookup_dinsertAll _ _ _ _ _ hk
  · intro a ha
    rw [basic_verify_append]
    rcases List.mem_append.mp ha with ha1 | ha2
    · exact isSome_dlookup_dinsertAll _ _ _ _ _
        (hmem st0 accts1 a h1 ha1)
    · exact hmem (dav_auth_init st0 accts1) accts2 a h2 ha2

/-- C4: every loaded `{username, password}` pair authenticates through a
header of `"Basic "` followed by `base64(username + ":" + password)` and
returns that user (in particular `alice:secret` with header
`Basic YWxpY2U6c2VjcmV0` returns user `alice`), and every single-byte
mutation of the base64 token that does not equal a loaded credential string
makes verification return absence ("no permission").  Usernames and
credential strings are assumed collision-free, matching the load-time
last-write-wins proviso. -/
theorem basic_auth_roundtrip (md5hex : List Char → List Char)
    (accts : List DAVUser) (method : List Char) :
    (∀ u : DAVUser, (accts.map DAVUser.username).Nodup →
      (accts.map basic_credential).Nodup → u ∈ accts →
      pick_out_user md5hex (dav_auth_init emptyAuthState accts)
        [(encodeUtf8 ("authorization".toList),
          encodeUtf8 ("Basic ".toList) ++ basic_credential u)] method =
        some (some u, [])) ∧
    (pick_out_user md5hex
        (dav_auth_init emptyAuthState [⟨"alice".toList, "secret".toList, [], false⟩])
        [(encodeUtf8 ("authorization".toList),
          encodeUtf8 ("Basic YWxpY2U6c2VjcmV0".toList))] method =
      some (some ⟨"alice".toList, "secret".toList, [], false⟩, [])) ∧
    (∀ (u : DAVUser) (i b : Nat), u ∈ accts →
      (∀ a ∈ accts, (basic_credential u).set i b ≠ basic_credential a) →
      pick_out_user md5hex (dav_auth_init emptyAuthState accts)
        [(encodeUtf8 ("authorization".toList),
          encodeUtf8 ("Basic ".toList) ++ (basic_credential u).set i b)] method =
        some (none, "no permission".toList)) := by
  refine ⟨?_, ?_, ?_⟩
  · intro u hnd1 hnd2 hu
    rw [pick_out_user_basic_header, register_map_of_nodup_usernames accts hnd1,
      dlookup_dinsertAll_of_nodup basic_credential (fun u => u) u accts [] hnd2 hu]
  · have h : encodeUtf8 ("Basic YWxpY2U6c2VjcmV0".toList) =
        encodeUtf8 ("Basic ".toList) ++
          basic_credential ⟨"alice".toList, "secret".toList, [], false⟩ := by decide
    rw [h, pick_out_user_basic_header,
      register_map_of_nodup_usernames _ (by decide),
      dlookup_dinsertAll_of_nodup basic_credential (fun u => u)
        ⟨"alice".toList, "secret".toList, [], false⟩ _ [] (by decide) (by decide)]
  · intro u i b _hu hmut
    rw [pick_out_user_basic_header]
    have hnone : dlookup ((basic_credential u).set i b)
        (dav_auth_init emptyAuthState accts).credential_user_mapping = none := by
      apply dlookup_eq_none_of_not_mem_keys
      intro hmem
      have hmem2 : (basic_credential u).set i b ∈
          (dinsertAll basic_credential (fun u => u)
            ((dinsertAll DAVUser.username (fun u => u) accts
              ([] : PyDict (List Char) DAVUser)).map Prod.snd)
            ([] : PyDict (List Nat) DAVUser)).map Prod.fst := hmem
      rcases mem_keys_dinsertAll _ _ _ _ _ hmem2 with h1 | ⟨y, hy, hyk⟩
      · simp at h1
      · rcases mem_map_snd_dinsertAll _ _ _ _ _ hy with h2 | ⟨z, hz, hzy⟩
        · simp at h2
        · exact hmut y (by rw [← hzy]; exact hz) hyk.symm
    rw [hnone]

/-- Witness for C4: `basic_auth_roundtrip` applied to the `alice:secret`
account, and to the credential token with its first byte mutated. -/
theorem basic_auth_roundtrip_witness :
    (pick_out_user (fun s => s)
        (dav_auth_init emptyAuthState [⟨"alice".toList, "secret".toList, [], false⟩])
        [(encodeUtf8 ("authorization".toList),
          encodeUtf8 ("Basic ".toList) ++
            basic_credential ⟨"alice".toList, "secret".toList, [], false⟩)] [] =
      some (some ⟨"alice".toList, "secret".toList, [], false⟩, [])) ∧
    (pick_out_user (fun s => s)
        (dav_auth_init emptyAuthState [⟨"alice".toList, "secret".toList, [], false⟩])
        [(encodeUtf8 ("authorization".toList),
          encodeUtf8 ("Basic ".toList) ++
            (basic_credential ⟨"alice".toList, "secret".toList, [], false⟩).set 0 66)] [] =
      some (none, "no permission".toList)) :=
  ⟨(basic_auth_roundtrip (fun s => s)
      [⟨"alice".toList, "secret".toList, [], false⟩] []).1
      ⟨"alice".toList, "secret".toList, [], false⟩ (by decide) (by decide) (by decide),
   (basic_auth_roundtrip (fun s => s)
      [⟨"alice".toList, "secret".toList, [], false⟩] []).2.2
      ⟨"alice".toList, "secret".toList, [], false⟩ 0 66 (by decide) (by decide)⟩

/-- Witness for C10: two sequential constructions loading `alice` and then
`bob`; the second instance still accepts `alice`'s Basic credential. -/
theorem class_level_maps_accumulate_witness :
    (basic_verify_user
      (dav_auth_init (dav_auth_init emptyAuthState
          [⟨"alice".toList, "secret".toList, [], false⟩])
          [⟨"bob".toList, "pw".toList, [], true⟩]).credential_user_mapping
      (encodeUtf8 ("Basic ".toList) ++
        basic_credential ⟨"alice".toList, "secret".toList, [], false⟩)).isSome := by
  exact (class_level_maps_accumulate emptyAuthState
    [⟨"alice".toList, "secret".toList, [], false⟩]
    [⟨"bob".toList, "pw".toList, [], true⟩]
    (by decide) (by decide)).2.2
    ⟨"alice".toList, "secret".toList, [], false⟩ (by decide)

end AsgiWebdav
